import Mathlib

/-!
# tensorflow/contrib/verbs/rdma.h

A shallow embedding of the RDMA verbs transport header: the wire layout of the
control message (`RdmaMessage`), the immediate-data sentinels
(`RdmaImmDataType`), the region comparator of `RdmaMemoryMgr`, the response
record `RdmaTensorResponse` and the request table of `RdmaChannel`.

Sizes are in bytes, offsets are byte offsets from the start of the message
buffer, addresses are natural numbers and a pointer sum is taken modulo `2 ^ 64`.
-/

namespace Rdma

/-! ## Object sizes -/

/-- Values of `sizeof` for the field types of `RdmaMessage` whose width is chosen
by the compiler or by a declaration outside this header: the plain enum
`RdmaMessageType`, `bool`, the enum `DataType`, the class `TensorShape` and
`size_t`. -/
structure Abi where
  sizeofRdmaMessageType : Nat
  sizeofBool : Nat
  sizeofDataType : Nat
  sizeofTensorShape : Nat
  sizeofSizeT : Nat
  deriving DecidableEq, Repr

/-- Every object has a size of at least one byte. -/
def Abi.Valid (abi : Abi) : Prop :=
  0 < abi.sizeofRdmaMessageType ∧ 0 < abi.sizeofBool ∧ 0 < abi.sizeofDataType ∧
    0 < abi.sizeofTensorShape ∧ 0 < abi.sizeofSizeT

instance (abi : Abi) : Decidable abi.Valid := by
  unfold Abi.Valid; infer_instance

/-- The x86-64 Linux C++ ABI the verbs transport is built for: an enum without a
fixed underlying type is stored as an `int` (4 bytes), `bool` is 1 byte and
`size_t` is 8 bytes.  The sizes of `DataType` and `TensorShape`, declared in
other headers, are parameters. -/
def lp64 (sizeofDataType sizeofTensorShape : Nat) : Abi :=
  { sizeofRdmaMessageType := 4
    sizeofBool := 1
    sizeofDataType := sizeofDataType
    sizeofTensorShape := sizeofTensorShape
    sizeofSizeT := 8 }

/-- Width of `uint16_t` (`name_size_`). -/
def sizeof_uint16_t : Nat := 2
/-- Width of `int64` (`step_id_`). -/
def sizeof_int64 : Nat := 8
/-- Width of `uint64_t` (`request_index_`, `remote_addr_`, `checksum_`). -/
def sizeof_uint64_t : Nat := 8
/-- Width of `uint32_t` (`rkey_`). -/
def sizeof_uint32_t : Nat := 4

/-! ## `RdmaMessage` layout constants (rdma.h lines 111-137) -/

namespace RdmaMessage

def kNameCapacity : Nat := 512
def kTypeStartIndex : Nat := 0
def kNameSizeStartIndex (abi : Abi) : Nat := kTypeStartIndex + abi.sizeofRdmaMessageType
def kNameStartIndex (abi : Abi) : Nat := kNameSizeStartIndex abi + sizeof_uint16_t
def kStepIdStartIndex (abi : Abi) : Nat := kNameStartIndex abi + kNameCapacity
def kRequestIndexStartIndex (abi : Abi) : Nat := kStepIdStartIndex abi + sizeof_int64
def kRemoteAddrStartIndex (abi : Abi) : Nat := kRequestIndexStartIndex abi + sizeof_uint64_t
def kChecksumStartIndex (abi : Abi) : Nat := kRemoteAddrStartIndex abi
def kRkeyStartIndex (abi : Abi) : Nat := kRemoteAddrStartIndex abi + sizeof_uint64_t
def kIsDeadStartIndex (abi : Abi) : Nat := kRkeyStartIndex abi + sizeof_uint32_t
def kDataTypeStartIndex (abi : Abi) : Nat := kIsDeadStartIndex abi + abi.sizeofBool
def kTensorShapeStartIndex (abi : Abi) : Nat := kDataTypeStartIndex abi + abi.sizeofDataType
def kTensorBytesStartIndex (abi : Abi) : Nat :=
  kTensorShapeStartIndex abi + abi.sizeofTensorShape
def kErrorStatusStartIndex (abi : Abi) : Nat := kTensorBytesStartIndex abi + abi.sizeofSizeT
def kErrorStatusMaxSize : Nat := 4096
def kMessageTotalBytes (abi : Abi) : Nat := kErrorStatusStartIndex abi
def kRdmaMessageBufferSize (abi : Abi) : Nat := kMessageTotalBytes abi + kErrorStatusMaxSize

/-- The eleven header fields in declaration order, each as the pair of its start
offset and its size: type, name_size, name (counted as `kNameCapacity`),
step_id, request_index, remote_addr, rkey, is_dead, data_type, tensor_shape,
tensor_bytes. -/
def headerFields (abi : Abi) : List (Nat × Nat) :=
  [ (kTypeStartIndex, abi.sizeofRdmaMessageType),
    (kNameSizeStartIndex abi, sizeof_uint16_t),
    (kNameStartIndex abi, kNameCapacity),
    (kStepIdStartIndex abi, sizeof_int64),
    (kRequestIndexStartIndex abi, sizeof_uint64_t),
    (kRemoteAddrStartIndex abi, sizeof_uint64_t),
    (kRkeyStartIndex abi, sizeof_uint32_t),
    (kIsDeadStartIndex abi, abi.sizeofBool),
    (kDataTypeStartIndex abi, abi.sizeofDataType),
    (kTensorShapeStartIndex abi, abi.sizeofTensorShape),
    (kTensorBytesStartIndex abi, abi.sizeofSizeT) ]

/-- The header fields followed by the error-status region. -/
def allFields (abi : Abi) : List (Nat × Nat) :=
  headerFields abi ++ [(kErrorStatusStartIndex abi, kErrorStatusMaxSize)]

end RdmaMessage

/-- Byte `x` lies in the range `[start, start + size)` of field `f = (start, size)`. -/
def inField (f : Nat × Nat) (x : Nat) : Prop := f.1 ≤ x ∧ x < f.1 + f.2

instance (f : Nat × Nat) (x : Nat) : Decidable (inField f x) := by
  unfold inField; infer_instance

/-! ## Immediate types for RDMA write (rdma.h lines 142-147) -/

def RDMA_IMM_MAX_REQUEST_ID : Nat := 0xFFFFFFFD
def RDMA_IMM_DATA_ACK : Nat := 0xFFFFFFFE
def RDMA_IMM_DATA_MESSAGE : Nat := 0xFFFFFFFF

/-! ## `RdmaMessage` (rdma.h lines 79-105) -/

/-- The enum `RdmaMessageType`, held as its integer value. -/
abbrev RdmaMessageType := Nat

def RDMA_MESSAGE_META_DATA_UPDATE : RdmaMessageType := 0
def RDMA_MESSAGE_TENSOR_RE_REQUEST : RdmaMessageType := 1
def RDMA_MESSAGE_TENSOR_REQUEST : RdmaMessageType := 2
def RDMA_MESSAGE_ERROR_STATUS : RdmaMessageType := 3

/-- The struct `RdmaMessage`.  Strings and the objects whose serialization is
done by code outside the header (`TensorShape`, `Status`) are held as their
bytes; `remote_addr_` stands for the union of `remote_addr_` and `checksum_`. -/
structure RdmaMessage where
  type_ : RdmaMessageType
  name_size_ : Nat
  name_ : List Nat
  step_id_ : Int
  request_index_ : Nat
  remote_addr_ : Nat
  rkey_ : Nat
  is_dead_ : Bool
  data_type_ : Nat
  tensor_shape_ : List Nat
  tensor_bytes_ : Nat
  status_ : List Nat
  deriving DecidableEq, Repr

/-- The message type is one of the four enumerators. -/
def RdmaMessage.isKnownType (t : RdmaMessageType) : Prop :=
  t = RDMA_MESSAGE_META_DATA_UPDATE ∨ t = RDMA_MESSAGE_TENSOR_RE_REQUEST ∨
    t = RDMA_MESSAGE_TENSOR_REQUEST ∨ t = RDMA_MESSAGE_ERROR_STATUS

instance (t : RdmaMessageType) : Decidable (RdmaMessage.isKnownType t) := by
  unfold RdmaMessage.isKnownType; infer_instance

/-- Every byte of the list is below 256. -/
def allBytes (bs : List Nat) : Prop := ∀ b ∈ bs, b < 256

instance (bs : List Nat) : Decidable (allBytes bs) := by
  unfold allBytes; infer_instance

/-- Each field holds a value of its declared C++ type: `uint16_t name_size_`,
a byte string `name_`, `int64 step_id_`, `uint64_t request_index_` and
`remote_addr_`, `uint32_t rkey_`, a `DataType` and a `size_t` of the widths of
the ABI, a `TensorShape` object of `sizeof(TensorShape)` bytes, and a byte
string for the serialized status. -/
def RdmaMessage.TypesOk (abi : Abi) (rm : RdmaMessage) : Prop :=
  rm.name_size_ < 256 ^ sizeof_uint16_t ∧ allBytes rm.name_ ∧
    (-(2 : Int) ^ 63 ≤ rm.step_id_ ∧ rm.step_id_ < (2 : Int) ^ 63) ∧
    rm.request_index_ < 256 ^ sizeof_uint64_t ∧
    rm.remote_addr_ < 256 ^ sizeof_uint64_t ∧
    rm.rkey_ < 256 ^ sizeof_uint32_t ∧
    rm.data_type_ < 256 ^ abi.sizeofDataType ∧
    (rm.tensor_shape_.length = abi.sizeofTensorShape ∧ allBytes rm.tensor_shape_) ∧
    rm.tensor_bytes_ < 256 ^ abi.sizeofSizeT ∧
    allBytes rm.status_

instance (abi : Abi) (rm : RdmaMessage) : Decidable (rm.TypesOk abi) := by
  unfold RdmaMessage.TypesOk; infer_instance

/-! ### Byte-level access to the message buffer -/

/-- The `memcpy` of the `w` low bytes of `v`, least significant first, to offset
`off` of the memory `mem`. -/
def storeLE (mem : Nat → Nat) (off w v : Nat) : Nat → Nat :=
  fun j => if off ≤ j ∧ j < off + w then v / 256 ^ (j - off) % 256 else mem j

/-- The `memcpy` of the bytes `bs` to offset `off` of the memory `mem`. -/
def storeBytes (mem : Nat → Nat) (off : Nat) (bs : List Nat) : Nat → Nat :=
  fun j => if off ≤ j ∧ j < off + bs.length then bs.getD (j - off) 0 % 256 else mem j

/-- The value of the `w` bytes at offset `off`, least significant first. -/
def loadLE (mem : Nat → Nat) (off : Nat) : Nat → Nat
  | 0 => 0
  | w + 1 => mem off + 256 * loadLE mem (off + 1) w

/-- The `n` bytes at offset `off`. -/
def loadBytes (mem : Nat → Nat) (off n : Nat) : List Nat :=
  (List.range n).map (fun k => mem (off + k))

/-- The two's complement bit pattern of an `int64`. -/
def int64Bits (x : Int) : Nat := (x % (2 : Int) ^ 64).toNat

/-- The `int64` with the given 64-bit pattern. -/
def int64OfBits (u : Nat) : Int := if u < 2 ^ 63 then (u : Int) else (u : Int) - (2 : Int) ^ 64

/-- Width of the size prefix of the error-status region (`size - 4B`). -/
def kErrorStatusSizeBytes : Nat := 4

/-- Modelled from the spec: the contents of the local array `message` that the
body of `RdmaMessage::CreateMessage`, declared in rdma.h and defined outside
it, fills.  Following the wire format, the array is zero-initialised, the type
tag is one byte at `kTypeStartIndex`, each fixed-width field is copied to its
start offset, the name is cut to the capacity of the name field, and the
error-status region, used only by the `ERROR_STATUS` variant, holds a 4-byte
size followed by the serialized status, cut to the region. -/
def RdmaMessage.fill (abi : Abi) (rm : RdmaMessage) : Nat → Nat :=
  let m0 : Nat → Nat := fun _ => 0
  let m1 := storeLE m0 RdmaMessage.kTypeStartIndex 1 rm.type_
  let m2 := storeLE m1 (RdmaMessage.kNameSizeStartIndex abi) sizeof_uint16_t rm.name_size_
  let m3 := storeBytes m2 (RdmaMessage.kNameStartIndex abi)
    (rm.name_.take RdmaMessage.kNameCapacity)
  let m4 := storeLE m3 (RdmaMessage.kStepIdStartIndex abi) sizeof_int64 (int64Bits rm.step_id_)
  let m5 := storeLE m4 (RdmaMessage.kRequestIndexStartIndex abi) sizeof_uint64_t
    rm.request_index_
  let m6 := storeLE m5 (RdmaMessage.kRemoteAddrStartIndex abi) sizeof_uint64_t rm.remote_addr_
  let m7 := storeLE m6 (RdmaMessage.kRkeyStartIndex abi) sizeof_uint32_t rm.rkey_
  let m8 := storeLE m7 (RdmaMessage.kIsDeadStartIndex abi) abi.sizeofBool
    (if rm.is_dead_ then 1 else 0)
  let m9 := storeLE m8 (RdmaMessage.kDataTypeStartIndex abi) abi.sizeofDataType rm.data_type_
  let m10 := storeBytes m9 (RdmaMessage.kTensorShapeStartIndex abi)
    (rm.tensor_shape_.take abi.sizeofTensorShape)
  let m11 := storeLE m10 (RdmaMessage.kTensorBytesStartIndex abi) abi.sizeofSizeT
    rm.tensor_bytes_
  let st := rm.status_.take (RdmaMessage.kErrorStatusMaxSize - kErrorStatusSizeBytes)
  if rm.type_ = RDMA_MESSAGE_ERROR_STATUS then
    storeBytes
      (storeLE m11 (RdmaMessage.kErrorStatusStartIndex abi) kErrorStatusSizeBytes st.length)
      (RdmaMessage.kErrorStatusStartIndex abi + kErrorStatusSizeBytes) st
  else m11

/-- Modelled from the spec: `RdmaMessage::CreateMessage`, which rdma.h declares
without its body: the filled array as a string; every message, regardless of
variant, occupies a full buffer of `kRdmaMessageBufferSize` bytes. -/
def RdmaMessage.CreateMessage (abi : Abi) (rm : RdmaMessage) : List Nat :=
  (List.range (RdmaMessage.kRdmaMessageBufferSize abi)).map (rm.fill abi)

/-- Modelled from the spec: the body of `RdmaMessage::ParseMessage`, which is
declared in rdma.h and defined outside it.  It fills `rm` from the buffer: the
one-byte type tag, the fixed-width fields at their start offsets, the name as
the `name_size_` bytes of the name field, and, for the `ERROR_STATUS` variant
only, the status as the bytes that follow the 4-byte size of the error-status
region. -/
def RdmaMessage.ParseMessage (abi : Abi) (rm : RdmaMessage) (buffer : List Nat) :
    RdmaMessage :=
  let mem : Nat → Nat := fun i => buffer.getD i 0
  let type := loadLE mem RdmaMessage.kTypeStartIndex 1
  let name_size := loadLE mem (RdmaMessage.kNameSizeStartIndex abi) sizeof_uint16_t
  { type_ := type
    name_size_ := name_size
    name_ := loadBytes mem (RdmaMessage.kNameStartIndex abi) name_size
    step_id_ := int64OfBits (loadLE mem (RdmaMessage.kStepIdStartIndex abi) sizeof_int64)
    request_index_ := loadLE mem (RdmaMessage.kRequestIndexStartIndex abi) sizeof_uint64_t
    remote_addr_ := loadLE mem (RdmaMessage.kRemoteAddrStartIndex abi) sizeof_uint64_t
    rkey_ := loadLE mem (RdmaMessage.kRkeyStartIndex abi) sizeof_uint32_t
    is_dead_ := decide (loadLE mem (RdmaMessage.kIsDeadStartIndex abi) abi.sizeofBool ≠ 0)
    data_type_ := loadLE mem (RdmaMessage.kDataTypeStartIndex abi) abi.sizeofDataType
    tensor_shape_ :=
      loadBytes mem (RdmaMessage.kTensorShapeStartIndex abi) abi.sizeofTensorShape
    tensor_bytes_ := loadLE mem (RdmaMessage.kTensorBytesStartIndex abi) abi.sizeofSizeT
    status_ :=
      if type = RDMA_MESSAGE_ERROR_STATUS then
        loadBytes mem (RdmaMessage.kErrorStatusStartIndex abi + kErrorStatusSizeBytes)
          (loadLE mem (RdmaMessage.kErrorStatusStartIndex abi) kErrorStatusSizeBytes)
      else rm.status_ }

/-! ## `RdmaMemoryMgr` (rdma.h lines 195-231) -/

/-- The fields of a registered memory region `ibv_mr` the manager reads: the
start address and the length of the range, and its keys. -/
structure ibv_mr where
  addr : Nat
  length : Nat
  lkey : Nat
  rkey : Nat
  deriving DecidableEq, Repr

namespace RdmaMemoryMgr

/-- `Comparator(ptr, other)`:
`ptr < reinterpret_cast<char*>(other->addr) + other->length`, the comparison of
`ptr` with the upper bound of the region, one past its last byte.  The sum of
the 64-bit `char*` and the `size_t` is taken modulo `2 ^ 64`. -/
def Comparator (ptr : Nat) (other : ibv_mr) : Bool :=
  decide (ptr < (other.addr + other.length) % 2 ^ 64)

/-- The first region of `mrs_` for which `Comparator(ptr, .)` is true. -/
def firstComparator (ptr : Nat) (mrs : List ibv_mr) : Option ibv_mr :=
  mrs.find? (Comparator ptr)

end RdmaMemoryMgr

/-- Region `mr` contains the address `p`: `addr <= p < addr + length`. -/
def ibv_mr.contains (mr : ibv_mr) (p : Nat) : Prop := mr.addr ≤ p ∧ p < mr.addr + mr.length

instance (mr : ibv_mr) (p : Nat) : Decidable (mr.contains p) := by
  unfold ibv_mr.contains; infer_instance

/-- Two regions overlap: the larger start lies below the smaller upper bound,
that is, some address lies in both ranges. -/
def ibv_mr.overlaps (a b : ibv_mr) : Prop :=
  max a.addr b.addr < min (a.addr + a.length) (b.addr + b.length)

instance (a b : ibv_mr) : Decidable (a.overlaps b) := by
  unfold ibv_mr.overlaps; infer_instance

/-- The regions are sorted by upper bound `addr + length`. -/
def SortedByUpper (mrs : List ibv_mr) : Prop :=
  mrs.Pairwise (fun a b => a.addr + a.length ≤ b.addr + b.length)

/-- The regions are pairwise non-overlapping. -/
def NonOverlapping (mrs : List ibv_mr) : Prop :=
  mrs.Pairwise (fun a b => ¬ a.overlaps b)

instance (mrs : List ibv_mr) : Decidable (SortedByUpper mrs) := by
  unfold SortedByUpper; infer_instance

instance (mrs : List ibv_mr) : Decidable (NonOverlapping mrs) := by
  unfold NonOverlapping; infer_instance

/-! ## `RdmaTensorResponse` (rdma.h lines 309-366) -/

/-- The data members of `RdmaTensorResponse`; pointers are held as addresses,
`0` being `nullptr`. -/
structure RdmaTensorResponse where
  channel_ : Nat
  rm_ : RdmaMessage
  src_dev_ : Nat
  src_buffer_ : Nat
  src_addr_ : Nat
  mr_ : Nat
  checksum_ : Nat
  meta_data_changed_ : Bool
  proto_ : Nat
  tensor_ : Nat
  is_dead_ : Bool
  deriving DecidableEq, Repr

namespace RdmaTensorResponse

/-- The constructor `RdmaTensorResponse(channel, rm)`, with the default member
initializers of the other fields. -/
def create (channel : Nat) (rm : RdmaMessage) : RdmaTensorResponse :=
  { channel_ := channel
    rm_ := rm
    src_dev_ := 0
    src_buffer_ := 0
    src_addr_ := 0
    mr_ := 0
    checksum_ := 0
    meta_data_changed_ := false
    proto_ := 0
    tensor_ := 0
    is_dead_ := false }

/-- `void Update(const RdmaMessage& rm) { rm_ = rm; }` -/
def Update (s : RdmaTensorResponse) (rm : RdmaMessage) : RdmaTensorResponse :=
  { s with rm_ := rm }

end RdmaTensorResponse

/-! ## `RdmaChannel` request table (rdma.h lines 427-433, 460-463) -/

/-- The data members of `RdmaTensorRequest` that identify a request. -/
structure RdmaTensorRequest where
  index_ : Nat
  key_ : List Nat
  step_id_ : Int
  dst_dev_ : Nat
  deriving DecidableEq, Repr

/-- `std::unordered_map<uint32_t, RdmaTensorRequest>` as a list of entries. -/
abbrev RequestTable := List (Nat × RdmaTensorRequest)

/-- `unordered_map::find`: the request stored under `i`, if any. -/
def RequestTable.find (t : RequestTable) (i : Nat) : Option RdmaTensorRequest :=
  t.lookup i

/-- `unordered_map::emplace`: the entry is added unless the key is present. -/
def RequestTable.emplace (t : RequestTable) (i : Nat) (r : RdmaTensorRequest) :
    RequestTable :=
  if (t.lookup i).isSome then t else (i, r) :: t

/-- `unordered_map::erase` by key. -/
def RequestTable.erase (t : RequestTable) (i : Nat) : RequestTable :=
  t.filter (fun e => e.1 != i)

/-- The number of live entries stored under the index `i`. -/
def RequestTable.liveCount (t : RequestTable) (i : Nat) : Nat :=
  (t.map Prod.fst).count i

/-- The request table and the serial of `RdmaChannel`. -/
structure RdmaChannel where
  request_table_ : RequestTable
  request_serial_ : Nat
  deriving DecidableEq, Repr

namespace RdmaChannel

/-- The number of values of the 32-bit request index. -/
def kRequestIndexSpace : Nat := 2 ^ 32

/-- Modelled from the spec: the index search of `RdmaChannel::InsertTensorRequest`,
whose body is outside rdma.h.  Starting at the serial, the next index is taken,
wrapping at 32 bits and skipping every index that is still live in the request
table; `fuel` bounds the search to one full wrap. -/
def nextRequestIndex (t : RequestTable) : Nat → Nat → Option Nat
  | _, 0 => none
  | cand, fuel + 1 =>
    if (t.find cand).isSome then nextRequestIndex t ((cand + 1) % kRequestIndexSpace) fuel
    else some cand

/-- Modelled from the spec: `RdmaChannel::InsertTensorRequest`, declared in rdma.h
and defined outside it.  It allocates the next serial request index and stores
the new request under it; a table saturated across a full wrap is an error
(`none`). -/
def InsertTensorRequest (ch : RdmaChannel) (key : List Nat) (step_id : Int) (dst_dev : Nat) :
    Option (RdmaTensorRequest × RdmaChannel) :=
  match nextRequestIndex ch.request_table_ (ch.request_serial_ % kRequestIndexSpace)
      kRequestIndexSpace with
  | none => none
  | some idx =>
    let request : RdmaTensorRequest :=
      { index_ := idx, key_ := key, step_id_ := step_id, dst_dev_ := dst_dev }
    some (request,
      { request_table_ := ch.request_table_.emplace idx request
        request_serial_ := (idx + 1) % kRequestIndexSpace })

/-- Modelled from the spec: `RdmaChannel::RemoveTensorRequest`, declared in rdma.h
and defined outside it: the table accessor that erases the entry of the index. -/
def RemoveTensorRequest (ch : RdmaChannel) (request_index : Nat) : RdmaChannel :=
  { ch with request_table_ := ch.request_table_.erase request_index }

/-- Modelled from the spec: `RdmaChannel::GetTensorRequest`, which rdma.h declares
without its body: the table accessor that looks the index up; the channel is
left as it is. -/
def GetTensorRequest (ch : RdmaChannel) (request_index : Nat) : Option RdmaTensorRequest :=
  ch.request_table_.find request_index

/-- A new channel: the request table is empty; the serial starts at `serial`. -/
def create (serial : Nat) : RdmaChannel :=
  { request_table_ := [], request_serial_ := serial }

/-- A call on the request table of a channel. -/
inductive RequestOp where
  | insert (key : List Nat) (step_id : Int) (dst_dev : Nat)
  | remove (request_index : Nat)
  | get (request_index : Nat)
  deriving DecidableEq, Repr

/-- The channel after one call: an insertion that fails for lack of a free index
and a lookup leave the channel as it is. -/
def step (ch : RdmaChannel) : RequestOp → RdmaChannel
  | .insert key step_id dst_dev =>
    match ch.InsertTensorRequest key step_id dst_dev with
    | some (_, ch2) => ch2
    | none => ch
  | .remove request_index => ch.RemoveTensorRequest request_index
  | .get _ => ch

/-- The channel after a sequence of calls. -/
def run (ch : RdmaChannel) (ops : List RequestOp) : RdmaChannel :=
  ops.foldl step ch

end RdmaChannel

/-! ## Example data -/

/-- The x86-64 Linux ABI with a 4-byte `DataType` and a 24-byte `TensorShape`. -/
def exampleAbi : Abi := lp64 4 24

/-- A message with every field zero or empty. -/
def RdmaMessage.blank : RdmaMessage :=
  { type_ := RDMA_MESSAGE_META_DATA_UPDATE, name_size_ := 0, name_ := [], step_id_ := 0,
    request_index_ := 0, remote_addr_ := 0, rkey_ := 0, is_dead_ := false, data_type_ := 0,
    tensor_shape_ := [], tensor_bytes_ := 0, status_ := [] }

/-- A tensor request for the key `"A"`. -/
def exampleRequest : RdmaMessage :=
  { type_ := RDMA_MESSAGE_TENSOR_REQUEST, name_size_ := 1, name_ := [65], step_id_ := -7,
    request_index_ := 5, remote_addr_ := 0x7f0000001000, rkey_ := 77, is_dead_ := true,
    data_type_ := 1, tensor_shape_ := List.replicate 24 0, tensor_bytes_ := 16, status_ := [] }

/-- The request for the key `"A"` with `name_size_` left at zero. -/
def exampleNameSizeZero : RdmaMessage := { exampleRequest with name_size_ := 0 }

/-- An error message whose serialized status has 4093 bytes. -/
def exampleLongStatus : RdmaMessage :=
  { exampleRequest with
    type_ := RDMA_MESSAGE_ERROR_STATUS, status_ := List.replicate 4093 0 }

/-- The range `[0, 10)`. -/
def exampleRegion : ibv_mr := { addr := 0, length := 10, lkey := 2, rkey := 2 }

/-- The empty range at address 10. -/
def exampleEmptyRegion : ibv_mr := { addr := 10, length := 0, lkey := 1, rkey := 1 }

/-- The empty range at 10 followed by the range `[0, 10)`. -/
def exampleRegionsWithEmpty : List ibv_mr := [exampleEmptyRegion, exampleRegion]

/-- The ranges `[0, 10)`, `[16, 24)` and `[24, 64)`. -/
def exampleRegions : List ibv_mr :=
  [exampleRegion, { addr := 16, length := 8, lkey := 3, rkey := 3 },
    { addr := 24, length := 40, lkey := 4, rkey := 4 }]

/-- The calls that bring a channel whose serial is at the last 32-bit index to a
table with one request. -/
def exampleOps : List RdmaChannel.RequestOp := [.insert [65] 7 0]

/-- The request the next insertion creates after `exampleOps`: its index wraps to 0. -/
def exampleNextRequest : RdmaTensorRequest :=
  { index_ := 0, key_ := [66], step_id_ := 7, dst_dev_ := 0 }

/-- The channel after that insertion. -/
def exampleNextChannel : RdmaChannel :=
  { request_table_ :=
      [(0, exampleNextRequest),
        (4294967295, { index_ := 4294967295, key_ := [65], step_id_ := 7, dst_dev_ := 0 })]
    request_serial_ := 1 }

end Rdma

/-! # Theorems -/

namespace Rdma

open RdmaMessage RdmaMemoryMgr RdmaChannel

/-! ## Layout of the control message -/

/-- C1 (code): on the x86-64 Linux ABI the type tag field is `sizeof(type_) = 4`
bytes wide, so `kTypeStartIndex = 0`, `kNameSizeStartIndex = 4`,
`kNameStartIndex = 6` and `kStepIdStartIndex = 518`; the offsets 1, 3 and 515 of
the layout comment (`type 1B`) are not the ones the constants evaluate to. -/
theorem type_tag_offsets_lp64 (dt ts : Nat) :
    kTypeStartIndex = 0 ∧ kNameSizeStartIndex (lp64 dt ts) = 4 ∧
      kNameStartIndex (lp64 dt ts) = 6 ∧ kStepIdStartIndex (lp64 dt ts) = 518 ∧
      kNameSizeStartIndex (lp64 dt ts) ≠ 1 ∧ kNameStartIndex (lp64 dt ts) ≠ 3 ∧
      kStepIdStartIndex (lp64 dt ts) ≠ 515 := by
  simp [kTypeStartIndex, kNameSizeStartIndex, kNameStartIndex, kStepIdStartIndex, lp64,
    sizeof_uint16_t, kNameCapacity]

/-- C2: the fixed-width header fields have the widths of the wire format, as
differences of consecutive start offsets: name 512, name length 2, step id 8,
request index 8, remote address 8, remote access key 4, liveness flag 1,
serialized-content size 8; the checksum starts where the remote address
starts. -/
theorem header_field_widths (dt ts : Nat) :
    kStepIdStartIndex (lp64 dt ts) - kNameStartIndex (lp64 dt ts) = 512 ∧
      kNameStartIndex (lp64 dt ts) - kNameSizeStartIndex (lp64 dt ts) = 2 ∧
      kRequestIndexStartIndex (lp64 dt ts) - kStepIdStartIndex (lp64 dt ts) = 8 ∧
      kRemoteAddrStartIndex (lp64 dt ts) - kRequestIndexStartIndex (lp64 dt ts) = 8 ∧
      kRkeyStartIndex (lp64 dt ts) - kRemoteAddrStartIndex (lp64 dt ts) = 8 ∧
      kIsDeadStartIndex (lp64 dt ts) - kRkeyStartIndex (lp64 dt ts) = 4 ∧
      kDataTypeStartIndex (lp64 dt ts) - kIsDeadStartIndex (lp64 dt ts) = 1 ∧
      kErrorStatusStartIndex (lp64 dt ts) - kTensorBytesStartIndex (lp64 dt ts) = 8 ∧
      kChecksumStartIndex (lp64 dt ts) = kRemoteAddrStartIndex (lp64 dt ts) := by
  simp [kErrorStatusStartIndex, kTensorBytesStartIndex, kTensorShapeStartIndex,
    kDataTypeStartIndex, kIsDeadStartIndex, kRkeyStartIndex, kChecksumStartIndex,
    kRemoteAddrStartIndex, kRequestIndexStartIndex, kStepIdStartIndex, kNameStartIndex,
    kNameSizeStartIndex, kTypeStartIndex, kNameCapacity, lp64, sizeof_uint16_t, sizeof_int64,
    sizeof_uint64_t, sizeof_uint32_t]

/-- The start offsets as sums of the sizes of the preceding fields. -/
theorem layout_offsets (abi : Abi) :
    kTypeStartIndex = 0 ∧
      kNameSizeStartIndex abi = abi.sizeofRdmaMessageType ∧
      kNameStartIndex abi = abi.sizeofRdmaMessageType + 2 ∧
      kStepIdStartIndex abi = abi.sizeofRdmaMessageType + 514 ∧
      kRequestIndexStartIndex abi = abi.sizeofRdmaMessageType + 522 ∧
      kRemoteAddrStartIndex abi = abi.sizeofRdmaMessageType + 530 ∧
      kRkeyStartIndex abi = abi.sizeofRdmaMessageType + 538 ∧
      kIsDeadStartIndex abi = abi.sizeofRdmaMessageType + 542 ∧
      kDataTypeStartIndex abi = abi.sizeofRdmaMessageType + 542 + abi.sizeofBool ∧
      kTensorShapeStartIndex abi =
        abi.sizeofRdmaMessageType + 542 + abi.sizeofBool + abi.sizeofDataType ∧
      kTensorBytesStartIndex abi =
        abi.sizeofRdmaMessageType + 542 + abi.sizeofBool + abi.sizeofDataType +
          abi.sizeofTensorShape ∧
      kErrorStatusStartIndex abi =
        abi.sizeofRdmaMessageType + 542 + abi.sizeofBool + abi.sizeofDataType +
          abi.sizeofTensorShape + abi.sizeofSizeT := by
  refine ⟨rfl, ?_, ?_, ?_, ?_, ?_, ?_, ?_, ?_, ?_, ?_, ?_⟩ <;>
    simp only [kRdmaMessageBufferSize, kMessageTotalBytes, kErrorStatusStartIndex,
      kTensorBytesStartIndex,
    kTensorShapeStartIndex, kDataTypeStartIndex, kIsDeadStartIndex, kRkeyStartIndex,
    kRemoteAddrStartIndex, kRequestIndexStartIndex, kStepIdStartIndex, kNameStartIndex,
    kNameSizeStartIndex, kTypeStartIndex, kNameCapacity, kErrorStatusMaxSize, sizeof_uint16_t,
    sizeof_int64, sizeof_uint64_t, sizeof_uint32_t] <;> omega

/-- C3: the start offsets of type, name_size, name, step_id, request_index,
remote_addr, rkey, is_dead, data_type, tensor_shape, tensor_bytes and
error_status are contiguous in declaration order (each start is the previous
start plus the previous size, the first start is 0); hence the starts are
strictly increasing, the byte ranges of two distinct fields are disjoint, every
byte of the header belongs to a field, and `kMessageTotalBytes` is the sum of
the sizes of the eleven header fields. -/
theorem header_offsets_contiguous (abi : Abi) (h : abi.Valid) :
    kTypeStartIndex = 0 ∧
      List.Chain' (fun a b => b.1 = a.1 + a.2) (allFields abi) ∧
      List.Pairwise (fun a b => a.1 < b.1) (allFields abi) ∧
      List.Pairwise (fun a b => ∀ x, ¬ (inField a x ∧ inField b x)) (allFields abi) ∧
      (∀ x, x < kMessageTotalBytes abi → ∃ f ∈ headerFields abi, inField f x) ∧
      kMessageTotalBytes abi = ((headerFields abi).map Prod.snd).sum := by
  obtain ⟨h1, h2, h3, h4, h5⟩ := h
  refine ⟨rfl, ?_, ?_, ?_, ?_, ?_⟩
  · simp only [allFields, headerFields, List.cons_append, List.nil_append, List.chain'_cons,
      List.chain'_singleton, and_true, kRdmaMessageBufferSize, kMessageTotalBytes,
      kErrorStatusStartIndex, kTensorBytesStartIndex, kTensorShapeStartIndex, kDataTypeStartIndex,
      kIsDeadStartIndex, kRkeyStartIndex, kRemoteAddrStartIndex, kRequestIndexStartIndex,
      kStepIdStartIndex, kNameStartIndex, kNameSizeStartIndex, kTypeStartIndex, kNameCapacity,
      kErrorStatusMaxSize, sizeof_uint16_t, sizeof_int64, sizeof_uint64_t, sizeof_uint32_t]
  · simp only [allFields, headerFields, List.cons_append, List.nil_append, List.pairwise_cons,
      List.mem_cons, List.mem_singleton, forall_eq_or_imp, forall_eq, List.not_mem_nil,
      List.Pairwise.nil, IsEmpty.forall_iff, implies_true, and_true, kRdmaMessageBufferSize,
      kMessageTotalBytes, kErrorStatusStartIndex, kTensorBytesStartIndex, kTensorShapeStartIndex,
      kDataTypeStartIndex, kIsDeadStartIndex, kRkeyStartIndex, kRemoteAddrStartIndex,
      kRequestIndexStartIndex, kStepIdStartIndex, kNameStartIndex, kNameSizeStartIndex,
      kTypeStartIndex, kNameCapacity, kErrorStatusMaxSize, sizeof_uint16_t, sizeof_int64,
      sizeof_uint64_t, sizeof_uint32_t]
    omega
  · simp only [allFields, headerFields, List.cons_append, List.nil_append, List.pairwise_cons,
      List.mem_cons, List.mem_singleton, forall_eq_or_imp, forall_eq, List.not_mem_nil,
      List.Pairwise.nil, IsEmpty.forall_iff, implies_true, and_true, inField,
      kRdmaMessageBufferSize, kMessageTotalBytes, kErrorStatusStartIndex, kTensorBytesStartIndex,
      kTensorShapeStartIndex, kDataTypeStartIndex, kIsDeadStartIndex, kRkeyStartIndex,
      kRemoteAddrStartIndex, kRequestIndexStartIndex, kStepIdStartIndex, kNameStartIndex,
      kNameSizeStartIndex, kTypeStartIndex, kNameCapacity, kErrorStatusMaxSize, sizeof_uint16_t,
      sizeof_int64, sizeof_uint64_t, sizeof_uint32_t]
    repeat' constructor
    all_goals (intro x; omega)
  · intro x hx
    simp only [kRdmaMessageBufferSize, kMessageTotalBytes, kErrorStatusStartIndex,
      kTensorBytesStartIndex, kTensorShapeStartIndex, kDataTypeStartIndex, kIsDeadStartIndex,
      kRkeyStartIndex, kRemoteAddrStartIndex, kRequestIndexStartIndex, kStepIdStartIndex,
      kNameStartIndex, kNameSizeStartIndex, kTypeStartIndex, kNameCapacity, kErrorStatusMaxSize,
      sizeof_uint16_t, sizeof_int64, sizeof_uint64_t, sizeof_uint32_t] at hx
    simp only [headerFields, List.mem_cons, List.mem_singleton, exists_eq_or_imp, exists_eq_left,
      List.not_mem_nil, false_and, exists_false, or_false, inField, kRdmaMessageBufferSize,
      kMessageTotalBytes, kErrorStatusStartIndex, kTensorBytesStartIndex, kTensorShapeStartIndex,
      kDataTypeStartIndex, kIsDeadStartIndex, kRkeyStartIndex, kRemoteAddrStartIndex,
      kRequestIndexStartIndex, kStepIdStartIndex, kNameStartIndex, kNameSizeStartIndex,
      kTypeStartIndex, kNameCapacity, kErrorStatusMaxSize, sizeof_uint16_t, sizeof_int64,
      sizeof_uint64_t, sizeof_uint32_t]
    omega
  · simp only [headerFields, List.map_cons, List.map_nil, List.sum_cons, List.sum_nil,
      kRdmaMessageBufferSize, kMessageTotalBytes, kErrorStatusStartIndex, kTensorBytesStartIndex,
      kTensorShapeStartIndex, kDataTypeStartIndex, kIsDeadStartIndex, kRkeyStartIndex,
      kRemoteAddrStartIndex, kRequestIndexStartIndex, kStepIdStartIndex, kNameStartIndex,
      kNameSizeStartIndex, kTypeStartIndex, kNameCapacity, kErrorStatusMaxSize, sizeof_uint16_t,
      sizeof_int64, sizeof_uint64_t, sizeof_uint32_t]
    omega

/-- C4: the buffer size is the header size plus the error-region size, with
`kErrorStatusMaxSize = 4096` and `kMessageTotalBytes = kErrorStatusStartIndex`;
the error-status region starts where the header ends, lies inside the buffer
and ends at the end of the buffer, and every byte of every header field lies
strictly before it. -/
theorem error_region_layout (abi : Abi) :
    kRdmaMessageBufferSize abi = kMessageTotalBytes abi + kErrorStatusMaxSize ∧
      kErrorStatusMaxSize = 4096 ∧
      kMessageTotalBytes abi = kErrorStatusStartIndex abi ∧
      kErrorStatusStartIndex abi = ((headerFields abi).map Prod.snd).sum ∧
      (∀ x, inField (kErrorStatusStartIndex abi, kErrorStatusMaxSize) x →
        x < kRdmaMessageBufferSize abi) ∧
      kErrorStatusStartIndex abi + 4096 = kRdmaMessageBufferSize abi ∧
      (∀ f ∈ headerFields abi, ∀ x, inField f x → x < kErrorStatusStartIndex abi) := by
  refine ⟨rfl, rfl, rfl, ?_, ?_, rfl, ?_⟩
  · simp only [headerFields, List.map_cons, List.map_nil, List.sum_cons, List.sum_nil,
      kRdmaMessageBufferSize, kMessageTotalBytes, kErrorStatusStartIndex, kTensorBytesStartIndex,
      kTensorShapeStartIndex, kDataTypeStartIndex, kIsDeadStartIndex, kRkeyStartIndex,
      kRemoteAddrStartIndex, kRequestIndexStartIndex, kStepIdStartIndex, kNameStartIndex,
      kNameSizeStartIndex, kTypeStartIndex, kNameCapacity, kErrorStatusMaxSize, sizeof_uint16_t,
      sizeof_int64, sizeof_uint64_t, sizeof_uint32_t]
    omega
  · intro x hx
    simp only [inField, kRdmaMessageBufferSize, kMessageTotalBytes, kErrorStatusStartIndex,
      kTensorBytesStartIndex, kTensorShapeStartIndex, kDataTypeStartIndex, kIsDeadStartIndex,
      kRkeyStartIndex, kRemoteAddrStartIndex, kRequestIndexStartIndex, kStepIdStartIndex,
      kNameStartIndex, kNameSizeStartIndex, kTypeStartIndex, kNameCapacity, kErrorStatusMaxSize,
      sizeof_uint16_t, sizeof_int64, sizeof_uint64_t, sizeof_uint32_t] at hx ⊢
    omega
  · simp only [headerFields, List.mem_cons, List.mem_singleton, forall_eq_or_imp, forall_eq,
      List.not_mem_nil, IsEmpty.forall_iff, implies_true, and_true, inField,
      kRdmaMessageBufferSize, kMessageTotalBytes, kErrorStatusStartIndex, kTensorBytesStartIndex,
      kTensorShapeStartIndex, kDataTypeStartIndex, kIsDeadStartIndex, kRkeyStartIndex,
      kRemoteAddrStartIndex, kRequestIndexStartIndex, kStepIdStartIndex, kNameStartIndex,
      kNameSizeStartIndex, kTypeStartIndex, kNameCapacity, kErrorStatusMaxSize, sizeof_uint16_t,
      sizeof_int64, sizeof_uint64_t, sizeof_uint32_t]
    repeat' constructor
    all_goals (intro x hx; omega)

/-- C5: `RDMA_IMM_DATA_ACK = 2^32 - 2` and `RDMA_IMM_DATA_MESSAGE = 2^32 - 1` are
distinct and are the two highest 32-bit values, `RDMA_IMM_MAX_REQUEST_ID` is
`RDMA_IMM_DATA_ACK - 1`, and every 32-bit value `v` is exactly one of: at most
`RDMA_IMM_MAX_REQUEST_ID`, equal to `RDMA_IMM_DATA_ACK`, equal to
`RDMA_IMM_DATA_MESSAGE`; `v` is a legal request index iff it is below both
sentinels. -/
theorem imm_data_partition (v : Nat) (hv : v < 2 ^ 32) :
    RDMA_IMM_DATA_ACK = 2 ^ 32 - 2 ∧ RDMA_IMM_DATA_MESSAGE = 2 ^ 32 - 1 ∧
      RDMA_IMM_DATA_ACK ≠ RDMA_IMM_DATA_MESSAGE ∧
      RDMA_IMM_MAX_REQUEST_ID = RDMA_IMM_DATA_ACK - 1 ∧
      v ≤ RDMA_IMM_DATA_MESSAGE ∧ (v ≠ RDMA_IMM_DATA_MESSAGE → v ≤ RDMA_IMM_DATA_ACK) ∧
      ((v ≤ RDMA_IMM_MAX_REQUEST_ID ∧ v ≠ RDMA_IMM_DATA_ACK ∧ v ≠ RDMA_IMM_DATA_MESSAGE) ∨
        (¬ v ≤ RDMA_IMM_MAX_REQUEST_ID ∧ v = RDMA_IMM_DATA_ACK ∧ v ≠ RDMA_IMM_DATA_MESSAGE) ∨
        (¬ v ≤ RDMA_IMM_MAX_REQUEST_ID ∧ v ≠ RDMA_IMM_DATA_ACK ∧ v = RDMA_IMM_DATA_MESSAGE)) ∧
      (v ≤ RDMA_IMM_MAX_REQUEST_ID ↔ v < RDMA_IMM_DATA_ACK ∧ v < RDMA_IMM_DATA_MESSAGE) := by
  have ha : RDMA_IMM_DATA_ACK = 4294967294 := rfl
  have hm : RDMA_IMM_DATA_MESSAGE = 4294967295 := rfl
  have hr : RDMA_IMM_MAX_REQUEST_ID = 4294967293 := rfl
  have hp : (2 : Nat) ^ 32 = 4294967296 := by norm_num
  rw [hp] at hv ⊢
  refine ⟨?_, ?_, ?_, ?_, ?_, ?_, ?_, ?_⟩ <;> omega

/-- C3: the contiguity of the offsets on the x86-64 Linux ABI, where the header has
583 bytes. -/
theorem header_offsets_contiguous_witness :
    exampleAbi.Valid ∧ kMessageTotalBytes exampleAbi = 583 ∧
      kMessageTotalBytes exampleAbi = ((headerFields exampleAbi).map Prod.snd).sum :=
  ⟨by decide, by decide, (header_offsets_contiguous exampleAbi (by decide)).2.2.2.2.2⟩

/-- C5: the immediate value 7 is a legal request index, below both sentinels. -/
theorem imm_data_partition_witness :
    7 < 2 ^ 32 ∧
      (7 ≤ RDMA_IMM_MAX_REQUEST_ID ↔ 7 < RDMA_IMM_DATA_ACK ∧ 7 < RDMA_IMM_DATA_MESSAGE) :=
  ⟨by norm_num, (imm_data_partition 7 (by norm_num)).2.2.2.2.2.2.2⟩

/-! ## `RdmaTensorResponse::Update` and `RdmaMemoryMgr::Comparator` -/

/-- Two regions overlap exactly when some address lies in both. -/
theorem overlaps_iff_common_address (a b : ibv_mr) :
    a.overlaps b ↔ ∃ x, a.contains x ∧ b.contains x := by
  unfold ibv_mr.overlaps ibv_mr.contains
  constructor
  · intro h
    refine ⟨max a.addr b.addr, ?_⟩
    omega
  · rintro ⟨x, h1, h2⟩
    omega

/-- C9: after `s.Update(rm)` the stored request message `rm_` is `rm` and the fields
`channel_`, `src_dev_`, `src_buffer_`, `src_addr_`, `mr_`, `checksum_`,
`meta_data_changed_`, `proto_`, `tensor_` and `is_dead_` are unchanged; applying
`Update` twice with the same `rm` equals applying it once. -/
theorem update_frame (s : RdmaTensorResponse) (rm : RdmaMessage) :
    (s.Update rm).rm_ = rm ∧
      (s.Update rm).channel_ = s.channel_ ∧
      (s.Update rm).src_dev_ = s.src_dev_ ∧
      (s.Update rm).src_buffer_ = s.src_buffer_ ∧
      (s.Update rm).src_addr_ = s.src_addr_ ∧
      (s.Update rm).mr_ = s.mr_ ∧
      (s.Update rm).checksum_ = s.checksum_ ∧
      (s.Update rm).meta_data_changed_ = s.meta_data_changed_ ∧
      (s.Update rm).proto_ = s.proto_ ∧
      (s.Update rm).tensor_ = s.tensor_ ∧
      (s.Update rm).is_dead_ = s.is_dead_ ∧
      (s.Update rm).Update rm = s.Update rm :=
  ⟨rfl, rfl, rfl, rfl, rfl, rfl, rfl, rfl, rfl, rfl, rfl, rfl⟩

/-- For a region that lies in the 64-bit address space the pointer sum of
`Comparator` is the upper bound `addr + length`. -/
theorem Comparator_eq (p : Nat) (r : ibv_mr) (h : r.addr + r.length < 2 ^ 64) :
    Comparator p r = decide (p < r.addr + r.length) := by
  unfold Comparator
  rw [Nat.mod_eq_of_lt h]

/-- For a region that ends at the top of the 64-bit address space the pointer sum
wraps to 0 and `Comparator` is false for every pointer. -/
theorem Comparator_wrap (p : Nat) (r : ibv_mr) (h : r.addr + r.length = 2 ^ 64) :
    Comparator p r = false := by
  unfold Comparator
  rw [h, Nat.mod_self]
  simp

/-- C10: for 64-bit pointers `p` and regions that lie in the 64-bit address space
(`addr + length < 2 ^ 64`), `Comparator(p, r)` holds exactly when `p` is strictly
below the upper bound `addr + length` of `r`; over a list sorted by upper bound,
if it holds at position `i` it holds at every position `j >= i`, so the regions
for which it holds form a suffix of the list. -/
theorem comparator_suffix (mrs : List ibv_mr) (p : Nat) (_hp : p < 2 ^ 64)
    (hfit : ∀ r ∈ mrs, r.addr + r.length < 2 ^ 64) (h : SortedByUpper mrs) :
    (∀ r, r.addr + r.length < 2 ^ 64 → (Comparator p r = true ↔ p < r.addr + r.length)) ∧
      (∀ (i j : Nat) (r s : ibv_mr), i ≤ j → mrs[i]? = some r → mrs[j]? = some s →
        Comparator p r = true → Comparator p s = true) ∧
      (∃ pre suf, mrs = pre ++ suf ∧ (∀ r ∈ pre, Comparator p r = false) ∧
        (∀ r ∈ suf, Comparator p r = true)) := by
  refine ⟨fun r hr => by rw [Comparator_eq p r hr, decide_eq_true_eq], ?_, ?_⟩
  · intro i j r s hij hi hj hr
    obtain ⟨hil, hi'⟩ := List.getElem?_eq_some_iff.mp hi
    obtain ⟨hjl, hj'⟩ := List.getElem?_eq_some_iff.mp hj
    have hrm : r ∈ mrs := hi' ▸ List.getElem_mem hil
    have hsm : s ∈ mrs := hj' ▸ List.getElem_mem hjl
    rw [Comparator_eq p r (hfit r hrm), decide_eq_true_eq] at hr
    rw [Comparator_eq p s (hfit s hsm), decide_eq_true_eq]
    rcases Nat.eq_or_lt_of_le hij with heq | hlt
    · subst heq
      rw [hi'] at hj'
      subst hj'
      exact hr
    · have := List.pairwise_iff_getElem.mp h i j hil hjl hlt
      rw [hi', hj'] at this
      omega
  · induction mrs with
    | nil => exact ⟨[], [], rfl, by simp, by simp⟩
    | cons a l ih =>
      have hs := List.pairwise_cons.mp h
      have hfa := hfit a (List.mem_cons_self a l)
      have hfl : ∀ r ∈ l, r.addr + r.length < 2 ^ 64 :=
        fun r hr => hfit r (List.mem_cons_of_mem a hr)
      obtain ⟨pre, suf, hl, hpre, hsuf⟩ := ih hfl hs.2
      by_cases ha : Comparator p a = true
      · refine ⟨[], a :: l, rfl, by simp, ?_⟩
        intro r hr
        rcases List.mem_cons.mp hr with rfl | hr
        · exact ha
        · have := hs.1 r hr
          rw [Comparator_eq p a hfa, decide_eq_true_eq] at ha
          rw [Comparator_eq p r (hfl r hr), decide_eq_true_eq]
          omega
      · refine ⟨a :: pre, suf, by simp [hl], ?_, hsuf⟩
        intro r hr
        rcases List.mem_cons.mp hr with rfl | hr
        · simpa using ha
        · exact hpre r hr

/-- C8 (amended): for every list of registered regions of positive length that lie
in the 64-bit address space (`addr + length < 2 ^ 64`), sorted by upper bound and
pairwise non-overlapping, and every 64-bit address `p`, a region that contains
`p` is the first region for which `Comparator(p, .)` is true and is the only
region (and the only position) containing `p`; if no region satisfies
`Comparator(p, .)`, or the first one that does fails to contain `p`, then no
region of the list contains `p`. -/
theorem lookup_unique_containing (mrs : List ibv_mr) (p : Nat) (_hp : p < 2 ^ 64)
    (hfit : ∀ r ∈ mrs, r.addr + r.length < 2 ^ 64) (hpos : ∀ r ∈ mrs, 0 < r.length)
    (hs : SortedByUpper mrs) (hn : NonOverlapping mrs) :
    (∀ r ∈ mrs, r.contains p →
        firstComparator p mrs = some r ∧ ∀ s ∈ mrs, s.contains p → s = r) ∧
      (∀ (i j : Nat) (r s : ibv_mr), mrs[i]? = some r → mrs[j]? = some s →
        r.contains p → s.contains p → i = j) ∧
      ((firstComparator p mrs = none ∨
          ∃ r, firstComparator p mrs = some r ∧ ¬ r.contains p) →
        ∀ s ∈ mrs, ¬ s.contains p) := by
  have key : ∀ r ∈ mrs, r.contains p →
      firstComparator p mrs = some r ∧ ∀ s ∈ mrs, s.contains p → s = r := by
    induction mrs with
    | nil => intro r hr; simp at hr
    | cons a l ih =>
      have hs' := List.pairwise_cons.mp hs
      have hn' := List.pairwise_cons.mp hn
      have hpa := hpos a (List.mem_cons_self a l)
      have hfa := hfit a (List.mem_cons_self a l)
      have hpl : ∀ r ∈ l, 0 < r.length := fun r hr => hpos r (List.mem_cons_of_mem a hr)
      have hfl : ∀ r ∈ l, r.addr + r.length < 2 ^ 64 :=
        fun r hr => hfit r (List.mem_cons_of_mem a hr)
      intro r hr hc
      have disj : ∀ s ∈ l, s.contains p → ¬ a.contains p := by
        intro s hsl hsc hac
        exact hn'.1 s hsl ((overlaps_iff_common_address a s).mpr ⟨p, hac, hsc⟩)
      rcases List.mem_cons.mp hr with rfl | hrl
      · refine ⟨?_, ?_⟩
        · have : Comparator p r = true := by
            rw [Comparator_eq p r hfa, decide_eq_true_eq]; exact hc.2
          simp [firstComparator, List.find?_cons, this]
        · intro s hsm hsc
          rcases List.mem_cons.mp hsm with rfl | hsl
          · rfl
          · exact absurd hc (disj s hsl hsc)
      · obtain ⟨hf, hu⟩ := ih hfl hpl hs'.2 hn'.2 r hrl hc
        have hna : Comparator p a = false := by
          have h1 := hs'.1 r hrl
          have h2 := hn'.1 r hrl
          have h3 := hpos r (List.mem_cons_of_mem a hrl)
          unfold ibv_mr.overlaps at h2
          unfold ibv_mr.contains at hc
          rw [Comparator_eq p a hfa, decide_eq_false_iff_not]
          omega
        refine ⟨?_, ?_⟩
        · simp only [firstComparator] at hf ⊢
          simp [List.find?_cons, hna, hf]
        · intro s hsm hsc
          rcases List.mem_cons.mp hsm with rfl | hsl
          · exact absurd hsc (disj r hrl hc)
          · exact hu s hsl hsc
  refine ⟨key, ?_, ?_⟩
  · intro i j r s hi hj hr hsc
    obtain ⟨hil, hi'⟩ := List.getElem?_eq_some_iff.mp hi
    obtain ⟨hjl, hj'⟩ := List.getElem?_eq_some_iff.mp hj
    rcases Nat.lt_trichotomy i j with hlt | heq | hgt
    · have hno := List.pairwise_iff_getElem.mp hn i j hil hjl hlt
      rw [hi', hj'] at hno
      exact absurd ((overlaps_iff_common_address r s).mpr ⟨p, hr, hsc⟩) hno
    · exact heq
    · have hno := List.pairwise_iff_getElem.mp hn j i hjl hil hgt
      rw [hi', hj'] at hno
      exact absurd ((overlaps_iff_common_address s r).mpr ⟨p, hsc, hr⟩) hno
  intro h s hsm hsc
  obtain ⟨hf, -⟩ := key s hsm hsc
  rcases h with h | ⟨r, hr, hnc⟩
  · rw [hf] at h; cases h
  · rw [hf] at hr; cases hr; exact hnc hsc

/-- C8 (as stated): with a region of length zero in the list the lookup by
`Comparator` misses the containing region.  The list `[10, 10)`, `[0, 10)` lies
in the 64-bit address space, is sorted by upper bound and non-overlapping,
`[0, 10)` contains 3, yet the first region for which `Comparator(3, .)` is true
is the empty `[10, 10)`, which does not contain 3. -/
theorem lookup_empty_region_counterexample :
    (∀ r ∈ exampleRegionsWithEmpty, r.addr + r.length < 2 ^ 64) ∧
      SortedByUpper exampleRegionsWithEmpty ∧ NonOverlapping exampleRegionsWithEmpty ∧
      exampleRegion ∈ exampleRegionsWithEmpty ∧ exampleRegion.contains 3 ∧
      firstComparator 3 exampleRegionsWithEmpty = some exampleEmptyRegion ∧
      firstComparator 3 exampleRegionsWithEmpty ≠ some exampleRegion ∧
      ¬ exampleEmptyRegion.contains 3 := by
  decide

/-- C8: the amended lookup property on the ranges `[0, 10)`, `[16, 24)`, `[24, 64)`
and the address 20. -/
theorem lookup_unique_containing_witness :
    20 < 2 ^ 64 ∧ (∀ r ∈ exampleRegions, r.addr + r.length < 2 ^ 64) ∧
      (∀ r ∈ exampleRegions, 0 < r.length) ∧ SortedByUpper exampleRegions ∧
      NonOverlapping exampleRegions ∧
      ((∀ r ∈ exampleRegions, r.contains 20 →
          firstComparator 20 exampleRegions = some r ∧
            ∀ s ∈ exampleRegions, s.contains 20 → s = r) ∧
        (∀ (i j : Nat) (r s : ibv_mr), exampleRegions[i]? = some r →
          exampleRegions[j]? = some s → r.contains 20 → s.contains 20 → i = j) ∧
        ((firstComparator 20 exampleRegions = none ∨
            ∃ r, firstComparator 20 exampleRegions = some r ∧ ¬ r.contains 20) →
          ∀ s ∈ exampleRegions, ¬ s.contains 20)) :=
  ⟨by decide, by decide, by decide, by decide, by decide,
    lookup_unique_containing exampleRegions 20 (by decide) (by decide) (by decide)
      (by decide) (by decide)⟩

/-- C10: the suffix property on the ranges `[0, 10)`, `[16, 24)`, `[24, 64)` and the
address 20. -/
theorem comparator_suffix_witness :
    20 < 2 ^ 64 ∧ (∀ r ∈ exampleRegions, r.addr + r.length < 2 ^ 64) ∧
      SortedByUpper exampleRegions ∧
      ∃ pre suf, exampleRegions = pre ++ suf ∧ (∀ r ∈ pre, Comparator 20 r = false) ∧
        (∀ r ∈ suf, Comparator 20 r = true) :=
  ⟨by decide, by decide, by decide,
    (comparator_suffix exampleRegions 20 (by decide) (by decide) (by decide)).2.2⟩

/-! ## Request table of `RdmaChannel` -/

/-- An index has an entry exactly when it is among the keys of the table. -/
theorem RequestTable.find_isSome_iff (t : RequestTable) (i : Nat) :
    (t.find i).isSome = true ↔ i ∈ t.map Prod.fst := by
  unfold RequestTable.find
  induction t with
  | nil => simp
  | cons e l ih =>
    obtain ⟨k, r⟩ := e
    by_cases h : i = k
    · subst h; simp [List.lookup_cons]
    · have hb : (i == k) = false := by simpa using h
      simp [List.lookup_cons, hb, ih, h]

/-- An index has no entry exactly when it is not among the keys of the table. -/
theorem RequestTable.find_eq_none_iff (t : RequestTable) (i : Nat) :
    t.find i = none ↔ i ∉ t.map Prod.fst := by
  rw [← RequestTable.find_isSome_iff]
  cases t.find i <;> simp

/-- Erasing an index removes its entry and keeps the lookup of the others. -/
theorem RequestTable.find_erase (t : RequestTable) (i j : Nat) :
    (t.erase i).find j = if j = i then none else t.find j := by
  unfold RequestTable.find RequestTable.erase
  induction t with
  | nil => simp
  | cons e l ih =>
    obtain ⟨k, r⟩ := e
    by_cases hk : k = i
    · subst hk
      by_cases hj : j = k
      · subst hj; simpa [List.filter_cons] using ih
      · have hb : (j == k) = false := by simpa using hj
        simpa [List.filter_cons, List.lookup_cons, hb, hj] using ih
    · have hb : (k != i) = true := by simpa using hk
      by_cases hj : j = k
      · subst hj
        simp [List.filter_cons, hb, List.lookup_cons, hk]
      · have hb2 : (j == k) = false := by simpa using hj
        simpa [List.filter_cons, hb, List.lookup_cons, hb2] using ih

/-- Looking up in a table after `emplace`. -/
theorem RequestTable.find_emplace (t : RequestTable) (i j : Nat) (r : RdmaTensorRequest)
    (h : t.find i = none) :
    (t.emplace i r).find j = if j = i then some r else t.find j := by
  unfold RequestTable.find at h
  unfold RequestTable.emplace RequestTable.find
  simp only [h, Option.isSome_none, Bool.false_eq_true, if_false]
  by_cases hj : j = i
  · subst hj; simp [List.lookup_cons]
  · have hb : (j == i) = false := by simpa using hj
    simp [List.lookup_cons, hb, hj]

/-- The index search returns an index without a live entry. -/
theorem RdmaChannel.nextRequestIndex_free (t : RequestTable) (fuel cand idx : Nat)
    (h : RdmaChannel.nextRequestIndex t cand fuel = some idx) : t.find idx = none := by
  induction fuel generalizing cand with
  | zero => simp [RdmaChannel.nextRequestIndex] at h
  | succ n ih =>
    unfold RdmaChannel.nextRequestIndex at h
    by_cases hc : (t.find cand).isSome = true
    · rw [if_pos hc] at h
      exact ih _ h
    · rw [if_neg hc] at h
      cases h
      simpa using hc

/-- The keys of the table stay distinct under `emplace`. -/
theorem RequestTable.nodup_emplace (t : RequestTable) (i : Nat) (r : RdmaTensorRequest)
    (h : (t.map Prod.fst).Nodup) : ((t.emplace i r).map Prod.fst).Nodup := by
  unfold RequestTable.emplace
  by_cases hc : (t.lookup i).isSome = true
  · rw [if_pos hc]; exact h
  · rw [if_neg hc]
    have : i ∉ t.map Prod.fst := by
      rw [← RequestTable.find_isSome_iff]; exact hc
    rw [List.map_cons, List.nodup_cons]
    exact ⟨this, h⟩

/-- The keys of the table stay distinct under `erase`. -/
theorem RequestTable.nodup_erase (t : RequestTable) (i : Nat)
    (h : (t.map Prod.fst).Nodup) : ((t.erase i).map Prod.fst).Nodup := by
  unfold RequestTable.erase
  exact h.sublist ((List.filter_sublist t).map Prod.fst)

/-- One call keeps the keys of the request table distinct. -/
theorem RdmaChannel.nodup_step (ch : RdmaChannel) (op : RdmaChannel.RequestOp)
    (h : (ch.request_table_.map Prod.fst).Nodup) :
    ((ch.step op).request_table_.map Prod.fst).Nodup := by
  cases op with
  | insert key step_id dst_dev =>
    simp only [RdmaChannel.step, RdmaChannel.InsertTensorRequest]
    cases hn : RdmaChannel.nextRequestIndex ch.request_table_
        (ch.request_serial_ % RdmaChannel.kRequestIndexSpace) RdmaChannel.kRequestIndexSpace with
    | none => simpa using h
    | some idx => simpa using RequestTable.nodup_emplace _ _ _ h
  | remove i => exact RequestTable.nodup_erase _ _ h
  | get i => exact h

/-- Every sequence of calls keeps the keys of the request table distinct. -/
theorem RdmaChannel.nodup_run (ops : List RdmaChannel.RequestOp) (ch : RdmaChannel)
    (h : (ch.request_table_.map Prod.fst).Nodup) :
    (((ch.run ops)).request_table_.map Prod.fst).Nodup := by
  induction ops generalizing ch with
  | nil => exact h
  | cons op l ih => exact ih _ (RdmaChannel.nodup_step ch op h)

/-- C7: in every state reached from a new channel through `InsertTensorRequest`,
`RemoveTensorRequest` and `GetTensorRequest`, every request index has at most
one live entry in `request_table_`; an index assigned by `InsertTensorRequest`
is not live before the call (and afterwards holds the new request, the other
entries being unchanged); after `RemoveTensorRequest(i)` the entry for `i` is
absent and every other entry is unchanged. -/
theorem request_table_invariant (serial : Nat) (ops : List RequestOp) :
    (∀ i, ((create serial).run ops).request_table_.liveCount i ≤ 1) ∧
      (∀ key step_id dst_dev request ch2,
        ((create serial).run ops).InsertTensorRequest key step_id dst_dev =
            some (request, ch2) →
          ((create serial).run ops).GetTensorRequest request.index_ = none ∧
            ch2.GetTensorRequest request.index_ = some request ∧
            ∀ j, j ≠ request.index_ →
              ch2.GetTensorRequest j = ((create serial).run ops).GetTensorRequest j) ∧
      (∀ i,
        (((create serial).run ops).RemoveTensorRequest i).GetTensorRequest i = none ∧
          (((create serial).run ops).RemoveTensorRequest i).request_table_.liveCount i = 0 ∧
          (∀ j, j ≠ i →
            (((create serial).run ops).RemoveTensorRequest i).GetTensorRequest j =
              ((create serial).run ops).GetTensorRequest j) ∧
          ∀ e, e ∈ (((create serial).run ops).RemoveTensorRequest i).request_table_ ↔
            e ∈ ((create serial).run ops).request_table_ ∧ e.1 ≠ i) := by
  have hnd : ((((create serial).run ops)).request_table_.map Prod.fst).Nodup :=
    nodup_run ops _ (by simp [create])
  generalize (create serial).run ops = ch at hnd ⊢
  refine ⟨?_, ?_, ?_⟩
  · intro i
    exact List.nodup_iff_count_le_one.mp hnd i
  · intro key step_id dst_dev request ch2 h
    simp only [InsertTensorRequest] at h
    cases hn : nextRequestIndex ch.request_table_ (ch.request_serial_ % kRequestIndexSpace)
        kRequestIndexSpace with
    | none => simp [hn] at h
    | some idx =>
      simp only [hn, Option.some.injEq, Prod.mk.injEq] at h
      obtain ⟨h1, h2⟩ := h
      subst h1 h2
      have hfree := nextRequestIndex_free _ _ _ _ hn
      refine ⟨hfree, ?_, ?_⟩
      · simp [GetTensorRequest, RequestTable.find_emplace _ _ _ _ hfree]
      · intro j hj
        simp only [GetTensorRequest, RequestTable.find_emplace _ _ _ _ hfree]
        simp at hj
        simp [hj]
  · intro i
    refine ⟨?_, ?_, ?_, ?_⟩
    · simp [GetTensorRequest, RemoveTensorRequest, RequestTable.find_erase]
    · simp only [RequestTable.liveCount, RemoveTensorRequest]
      rw [List.count_eq_zero, ← RequestTable.find_eq_none_iff, RequestTable.find_erase]
      simp
    · intro j hj
      simp [GetTensorRequest, RemoveTensorRequest, RequestTable.find_erase, hj]
    · intro e
      simp [RemoveTensorRequest, RequestTable.erase, List.mem_filter]


/-- A failed index search has found a live entry at every candidate it tried. -/
theorem RdmaChannel.nextRequestIndex_none (t : RequestTable) (fuel cand : Nat)
    (hc : cand < RdmaChannel.kRequestIndexSpace)
    (h : RdmaChannel.nextRequestIndex t cand fuel = none) :
    ∀ k, k < fuel → (t.find ((cand + k) % RdmaChannel.kRequestIndexSpace)).isSome = true := by
  induction fuel generalizing cand with
  | zero => intro k hk; omega
  | succ n ih =>
    unfold RdmaChannel.nextRequestIndex at h
    by_cases hl : (t.find cand).isSome = true
    · rw [if_pos hl] at h
      have hpos : 0 < RdmaChannel.kRequestIndexSpace := by
        unfold RdmaChannel.kRequestIndexSpace; positivity
      have ih' := ih _ (Nat.mod_lt _ hpos) h
      intro k hk
      cases k with
      | zero => simpa [Nat.mod_eq_of_lt hc] using hl
      | succ m =>
        have := ih' m (by omega)
        rw [Nat.add_mod, Nat.mod_mod, ← Nat.add_mod] at this
        rw [show cand + (m + 1) = cand + 1 + m by omega]
        exact this
    · rw [if_neg hl] at h
      cases h

/-- `InsertTensorRequest` returns a request unless the table holds an entry for
every 32-bit index. -/
theorem RdmaChannel.InsertTensorRequest_isSome (ch : RdmaChannel) (key : List Nat)
    (step_id : Int) (dst_dev : Nat)
    (h : ch.request_table_.length < RdmaChannel.kRequestIndexSpace) :
    (ch.InsertTensorRequest key step_id dst_dev).isSome = true := by
  have hN : RdmaChannel.kRequestIndexSpace = 4294967296 := by
    unfold RdmaChannel.kRequestIndexSpace; norm_num
  unfold RdmaChannel.InsertTensorRequest
  cases hn : RdmaChannel.nextRequestIndex ch.request_table_
      (ch.request_serial_ % RdmaChannel.kRequestIndexSpace) RdmaChannel.kRequestIndexSpace with
  | some idx => rfl
  | none =>
    exfalso
    have hc : ch.request_serial_ % RdmaChannel.kRequestIndexSpace <
        RdmaChannel.kRequestIndexSpace := Nat.mod_lt _ (by rw [hN]; norm_num)
    have hall := RdmaChannel.nextRequestIndex_none _ _ _ hc hn
    have hsub : List.range RdmaChannel.kRequestIndexSpace ⊆ ch.request_table_.map Prod.fst := by
      intro r hr
      rw [List.mem_range] at hr
      rw [← RequestTable.find_isSome_iff]
      generalize ch.request_serial_ % RdmaChannel.kRequestIndexSpace = c at hc hall
      rw [hN] at hr hc
      by_cases hrc : c ≤ r
      · have := hall (r - c) (by rw [hN]; omega)
        rw [hN] at this
        rw [show (c + (r - c)) % 4294967296 = r by omega] at this
        exact this
      · have := hall (r + 4294967296 - c) (by rw [hN]; omega)
        rw [hN] at this
        rw [show (c + (r + 4294967296 - c)) % 4294967296 = r by omega] at this
        exact this
    have hle := ((List.nodup_range _).subperm hsub).length_le
    rw [List.length_range, List.length_map] at hle
    omega


/-- C7: a channel whose serial is at the last 32-bit index and whose table holds
one request: the next insertion wraps to index 0, which is not live. -/
theorem request_table_invariant_witness :
    ((create 4294967295).run exampleOps).InsertTensorRequest [66] 7 0 =
        some (exampleNextRequest, exampleNextChannel) ∧
      ((create 4294967295).run exampleOps).GetTensorRequest exampleNextRequest.index_ = none ∧
      exampleNextChannel.GetTensorRequest exampleNextRequest.index_ =
        some exampleNextRequest :=
  ⟨by decide,
    ((request_table_invariant 4294967295 exampleOps).2.1 [66] 7 0 exampleNextRequest
      exampleNextChannel (by decide)).1,
    ((request_table_invariant 4294967295 exampleOps).2.1 [66] 7 0 exampleNextRequest
      exampleNextChannel (by decide)).2.1⟩

/-! ## Round trip of the control message -/

/-! ### Byte-level lemmas -/

/-- A load depends only on the bytes of its range. -/
theorem loadLE_congr (m1 m2 : Nat → Nat) (w off : Nat)
    (h : ∀ j, off ≤ j → j < off + w → m1 j = m2 j) : loadLE m1 off w = loadLE m2 off w := by
  induction w generalizing off with
  | zero => rfl
  | succ n ih =>
    simp only [loadLE]
    rw [h off (le_refl _) (by omega), ih (off + 1) (fun j h1 h2 => h j (by omega) (by omega))]

/-- A byte load depends only on the bytes of its range. -/
theorem loadBytes_congr (m1 m2 : Nat → Nat) (off n : Nat)
    (h : ∀ j, off ≤ j → j < off + n → m1 j = m2 j) :
    loadBytes m1 off n = loadBytes m2 off n := by
  unfold loadBytes
  apply List.map_congr_left
  intro k hk
  rw [List.mem_range] at hk
  exact h _ (by omega) (by omega)

/-- Loading what was stored at the same offset and width gives the value modulo the
width. -/
theorem loadLE_storeLE_same (m : Nat → Nat) (w off v : Nat) :
    loadLE (storeLE m off w v) off w = v % 256 ^ w := by
  induction w generalizing off v with
  | zero => simp [loadLE, Nat.mod_one]
  | succ n ih =>
    simp only [loadLE]
    have h1 : loadLE (storeLE m off (n + 1) v) (off + 1) n =
        loadLE (storeLE m (off + 1) n (v / 256)) (off + 1) n := by
      apply loadLE_congr
      intro j hj1 hj2
      simp only [storeLE]
      rw [if_pos (by omega), if_pos (by omega)]
      have : j - off = (j - (off + 1)) + 1 := by omega
      rw [this, pow_succ, Nat.mul_comm, ← Nat.div_div_eq_div_mul]
    rw [h1, ih]
    have h0 : storeLE m off (n + 1) v off = v % 256 := by
      simp only [storeLE]
      rw [if_pos (by omega)]
      simp
    rw [h0, pow_succ', Nat.mod_mul]

/-- A store to a disjoint range leaves a load unchanged. -/
theorem loadLE_storeLE_frame (m : Nat → Nat) (off w off2 w2 v : Nat)
    (h : off + w ≤ off2 ∨ off2 + w2 ≤ off) :
    loadLE (storeLE m off2 w2 v) off w = loadLE m off w := by
  apply loadLE_congr
  intro j h1 h2
  simp only [storeLE]
  rw [if_neg (by omega)]

/-- A byte store to a disjoint range leaves a load unchanged. -/
theorem loadLE_storeBytes_frame (m : Nat → Nat) (off w off2 : Nat) (bs : List Nat)
    (h : off + w ≤ off2 ∨ off2 + bs.length ≤ off) :
    loadLE (storeBytes m off2 bs) off w = loadLE m off w := by
  apply loadLE_congr
  intro j h1 h2
  simp only [storeBytes]
  rw [if_neg (by omega)]

/-- A store to a disjoint range leaves a byte load unchanged. -/
theorem loadBytes_storeLE_frame (m : Nat → Nat) (off n off2 w2 v : Nat)
    (h : off + n ≤ off2 ∨ off2 + w2 ≤ off) :
    loadBytes (storeLE m off2 w2 v) off n = loadBytes m off n := by
  apply loadBytes_congr
  intro j h1 h2
  simp only [storeLE]
  rw [if_neg (by omega)]

/-- A byte store to a disjoint range leaves a byte load unchanged. -/
theorem loadBytes_storeBytes_frame (m : Nat → Nat) (off n off2 : Nat) (bs : List Nat)
    (h : off + n ≤ off2 ∨ off2 + bs.length ≤ off) :
    loadBytes (storeBytes m off2 bs) off n = loadBytes m off n := by
  apply loadBytes_congr
  intro j h1 h2
  simp only [storeBytes]
  rw [if_neg (by omega)]

/-- Loading the bytes that were stored at the same offset gives them back. -/
theorem loadBytes_storeBytes_same (m : Nat → Nat) (off : Nat) (bs : List Nat)
    (h : allBytes bs) : loadBytes (storeBytes m off bs) off bs.length = bs := by
  apply List.ext_getElem
  · simp [loadBytes]
  · intro k h1 h2
    simp only [loadBytes, List.getElem_map, List.getElem_range, storeBytes]
    rw [if_pos (by omega)]
    have : off + k - off = k := by omega
    rw [this, List.getD_eq_getElem _ _ h2]
    exact Nat.mod_eq_of_lt (h _ (List.getElem_mem _))

/-- The bit pattern of an `int64` determines it. -/
theorem int64OfBits_int64Bits (x : Int) (h1 : -(2 : Int) ^ 63 ≤ x) (h2 : x < (2 : Int) ^ 63) :
    int64OfBits (int64Bits x) = x := by
  unfold int64OfBits int64Bits
  norm_num at h1 h2 ⊢
  split_ifs with hc <;> omega

/-- The bit pattern of an `int64` fits 8 bytes. -/
theorem int64Bits_lt (x : Int) : int64Bits x < 256 ^ 8 := by
  unfold int64Bits
  norm_num
  omega



/-- Inside the buffer the string returned by `CreateMessage` holds the filled array. -/
theorem CreateMessage_getD (abi : Abi) (rm : RdmaMessage) (i : Nat)
    (h : i < kRdmaMessageBufferSize abi) : (CreateMessage abi rm).getD i 0 = rm.fill abi i := by
  unfold CreateMessage
  rw [List.getD_eq_getElem _ _ (by simpa using h)]
  simp

/-- A load inside the buffer reads the filled array. -/
theorem loadLE_CreateMessage (abi : Abi) (rm : RdmaMessage) (off w : Nat)
    (h : off + w ≤ kRdmaMessageBufferSize abi) :
    loadLE (fun i => (CreateMessage abi rm).getD i 0) off w = loadLE (rm.fill abi) off w :=
  loadLE_congr _ _ _ _ (fun j _ h2 => CreateMessage_getD abi rm j (by omega))

/-- A byte load inside the buffer reads the filled array. -/
theorem loadBytes_CreateMessage (abi : Abi) (rm : RdmaMessage) (off n : Nat)
    (h : off + n ≤ kRdmaMessageBufferSize abi) :
    loadBytes (fun i => (CreateMessage abi rm).getD i 0) off n = loadBytes (rm.fill abi) off n :=
  loadBytes_congr _ _ _ _ (fun j _ h2 => CreateMessage_getD abi rm j (by omega))

/-- The header written by `fill`, with the error-status region left out. -/
theorem fill_header (abi : Abi) (rm : RdmaMessage) (habi : abi.Valid) :
    loadLE (rm.fill abi) kTypeStartIndex 1 = rm.type_ % 256 ^ 1 ∧
      loadLE (rm.fill abi) (kNameSizeStartIndex abi) sizeof_uint16_t =
        rm.name_size_ % 256 ^ sizeof_uint16_t ∧
      loadLE (rm.fill abi) (kStepIdStartIndex abi) sizeof_int64 =
        int64Bits rm.step_id_ % 256 ^ sizeof_int64 ∧
      loadLE (rm.fill abi) (kRequestIndexStartIndex abi) sizeof_uint64_t =
        rm.request_index_ % 256 ^ sizeof_uint64_t ∧
      loadLE (rm.fill abi) (kRemoteAddrStartIndex abi) sizeof_uint64_t =
        rm.remote_addr_ % 256 ^ sizeof_uint64_t ∧
      loadLE (rm.fill abi) (kRkeyStartIndex abi) sizeof_uint32_t =
        rm.rkey_ % 256 ^ sizeof_uint32_t ∧
      loadLE (rm.fill abi) (kIsDeadStartIndex abi) abi.sizeofBool =
        (if rm.is_dead_ then 1 else 0) % 256 ^ abi.sizeofBool ∧
      loadLE (rm.fill abi) (kDataTypeStartIndex abi) abi.sizeofDataType =
        rm.data_type_ % 256 ^ abi.sizeofDataType ∧
      loadLE (rm.fill abi) (kTensorBytesStartIndex abi) abi.sizeofSizeT =
        rm.tensor_bytes_ % 256 ^ abi.sizeofSizeT := by
  obtain ⟨h1, h2, h3, h4, h5⟩ := habi
  by_cases hE : rm.type_ = RDMA_MESSAGE_ERROR_STATUS
  · simp only [fill, if_pos hE, kRdmaMessageBufferSize, kMessageTotalBytes,
      kErrorStatusStartIndex, kTensorBytesStartIndex, kTensorShapeStartIndex, kDataTypeStartIndex,
      kIsDeadStartIndex, kRkeyStartIndex, kRemoteAddrStartIndex, kRequestIndexStartIndex,
      kStepIdStartIndex, kNameStartIndex, kNameSizeStartIndex, kTypeStartIndex, kNameCapacity,
      kErrorStatusMaxSize, sizeof_uint16_t, sizeof_int64, sizeof_uint64_t, sizeof_uint32_t,
      kErrorStatusSizeBytes]
    refine ⟨?_, ?_, ?_, ?_, ?_, ?_, ?_, ?_, ?_⟩ <;>
      simp (disch := omega) only [loadLE_storeLE_frame, loadLE_storeBytes_frame,
        loadBytes_storeLE_frame, loadBytes_storeBytes_frame, loadLE_storeLE_same,
        List.length_take]
  · simp only [fill, if_neg hE, kRdmaMessageBufferSize, kMessageTotalBytes,
      kErrorStatusStartIndex, kTensorBytesStartIndex, kTensorShapeStartIndex, kDataTypeStartIndex,
      kIsDeadStartIndex, kRkeyStartIndex, kRemoteAddrStartIndex, kRequestIndexStartIndex,
      kStepIdStartIndex, kNameStartIndex, kNameSizeStartIndex, kTypeStartIndex, kNameCapacity,
      kErrorStatusMaxSize, sizeof_uint16_t, sizeof_int64, sizeof_uint64_t, sizeof_uint32_t,
      kErrorStatusSizeBytes]
    refine ⟨?_, ?_, ?_, ?_, ?_, ?_, ?_, ?_, ?_⟩ <;>
      simp (disch := omega) only [loadLE_storeLE_frame, loadLE_storeBytes_frame,
        loadBytes_storeLE_frame, loadBytes_storeBytes_frame, loadLE_storeLE_same,
        List.length_take]


/-- The name and the shape written by `fill`. -/
theorem fill_name_shape (abi : Abi) (rm : RdmaMessage) (habi : abi.Valid)
    (hname : rm.name_.length ≤ kNameCapacity) (hn : allBytes rm.name_)
    (hshape : rm.tensor_shape_.length = abi.sizeofTensorShape) (hs : allBytes rm.tensor_shape_) :
    loadBytes (rm.fill abi) (kNameStartIndex abi) rm.name_.length = rm.name_ ∧
      loadBytes (rm.fill abi) (kTensorShapeStartIndex abi) abi.sizeofTensorShape =
        rm.tensor_shape_ := by
  obtain ⟨h1, h2, h3, h4, h5⟩ := habi
  have e1 : List.take kNameCapacity rm.name_ = rm.name_ := List.take_of_length_le hname
  have e2 : List.take abi.sizeofTensorShape rm.tensor_shape_ = rm.tensor_shape_ :=
    List.take_of_length_le (by omega)
  have e3 := loadBytes_storeBytes_same
  simp only [kRdmaMessageBufferSize, kMessageTotalBytes, kErrorStatusStartIndex,
    kTensorBytesStartIndex, kTensorShapeStartIndex, kDataTypeStartIndex, kIsDeadStartIndex,
    kRkeyStartIndex, kRemoteAddrStartIndex, kRequestIndexStartIndex, kStepIdStartIndex,
    kNameStartIndex, kNameSizeStartIndex, kTypeStartIndex, kNameCapacity, kErrorStatusMaxSize,
    sizeof_uint16_t, sizeof_int64, sizeof_uint64_t, sizeof_uint32_t,
    kErrorStatusSizeBytes] at hname
  by_cases hE : rm.type_ = RDMA_MESSAGE_ERROR_STATUS
  · simp only [fill, if_pos hE, e1, e2]
    simp only [kRdmaMessageBufferSize, kMessageTotalBytes, kErrorStatusStartIndex,
      kTensorBytesStartIndex, kTensorShapeStartIndex, kDataTypeStartIndex, kIsDeadStartIndex,
      kRkeyStartIndex, kRemoteAddrStartIndex, kRequestIndexStartIndex, kStepIdStartIndex,
      kNameStartIndex, kNameSizeStartIndex, kTypeStartIndex, kNameCapacity, kErrorStatusMaxSize,
      sizeof_uint16_t, sizeof_int64, sizeof_uint64_t, sizeof_uint32_t, kErrorStatusSizeBytes]
    refine ⟨?_, ?_⟩
    · simp (disch := omega) only [loadLE_storeLE_frame, loadLE_storeBytes_frame,
        loadBytes_storeLE_frame, loadBytes_storeBytes_frame, loadLE_storeLE_same,
        List.length_take]
      exact e3 _ _ _ hn
    · simp (disch := omega) only [loadLE_storeLE_frame, loadLE_storeBytes_frame,
        loadBytes_storeLE_frame, loadBytes_storeBytes_frame, loadLE_storeLE_same,
        List.length_take]
      rw [← hshape]
      exact e3 _ _ _ hs
  · simp only [fill, if_neg hE, e1, e2]
    simp only [kRdmaMessageBufferSize, kMessageTotalBytes, kErrorStatusStartIndex,
      kTensorBytesStartIndex, kTensorShapeStartIndex, kDataTypeStartIndex, kIsDeadStartIndex,
      kRkeyStartIndex, kRemoteAddrStartIndex, kRequestIndexStartIndex, kStepIdStartIndex,
      kNameStartIndex, kNameSizeStartIndex, kTypeStartIndex, kNameCapacity, kErrorStatusMaxSize,
      sizeof_uint16_t, sizeof_int64, sizeof_uint64_t, sizeof_uint32_t, kErrorStatusSizeBytes]
    refine ⟨?_, ?_⟩
    · simp (disch := omega) only [loadLE_storeLE_frame, loadLE_storeBytes_frame,
        loadBytes_storeLE_frame, loadBytes_storeBytes_frame, loadLE_storeLE_same,
        List.length_take]
      exact e3 _ _ _ hn
    · simp (disch := omega) only [loadLE_storeLE_frame, loadLE_storeBytes_frame,
        loadBytes_storeLE_frame, loadBytes_storeBytes_frame, loadLE_storeLE_same,
        List.length_take]
      rw [← hshape]
      exact e3 _ _ _ hs

/-- The error-status region written by `fill` for the `ERROR_STATUS` variant. -/
theorem fill_status (abi : Abi) (rm : RdmaMessage)
    (hE : rm.type_ = RDMA_MESSAGE_ERROR_STATUS) (hs : allBytes rm.status_) :
    loadLE (rm.fill abi) (kErrorStatusStartIndex abi) kErrorStatusSizeBytes =
        (rm.status_.take (kErrorStatusMaxSize - kErrorStatusSizeBytes)).length ∧
      loadBytes (rm.fill abi) (kErrorStatusStartIndex abi + kErrorStatusSizeBytes)
          (rm.status_.take (kErrorStatusMaxSize - kErrorStatusSizeBytes)).length =
        rm.status_.take (kErrorStatusMaxSize - kErrorStatusSizeBytes) := by
  have hb : allBytes (rm.status_.take (kErrorStatusMaxSize - kErrorStatusSizeBytes)) :=
    fun b hbm => hs b (List.mem_of_mem_take hbm)
  refine ⟨?_, ?_⟩
  · simp only [fill, if_pos hE]
    rw [loadLE_storeBytes_frame _ _ _ _ _ (by left; omega), loadLE_storeLE_same]
    apply Nat.mod_eq_of_lt
    rw [List.length_take]
    simp only [kErrorStatusMaxSize, kErrorStatusSizeBytes]
    omega
  · simp only [fill, if_pos hE]
    exact loadBytes_storeBytes_same _ _ _ hb

/-- Every field, the size of the error-status region and the region itself end
inside the message buffer. -/
theorem fields_in_buffer (abi : Abi) :
    kTypeStartIndex + 1 ≤ kRdmaMessageBufferSize abi ∧
      kNameSizeStartIndex abi + sizeof_uint16_t ≤ kRdmaMessageBufferSize abi ∧
      kNameStartIndex abi + kNameCapacity ≤ kRdmaMessageBufferSize abi ∧
      kStepIdStartIndex abi + sizeof_int64 ≤ kRdmaMessageBufferSize abi ∧
      kRequestIndexStartIndex abi + sizeof_uint64_t ≤ kRdmaMessageBufferSize abi ∧
      kRemoteAddrStartIndex abi + sizeof_uint64_t ≤ kRdmaMessageBufferSize abi ∧
      kRkeyStartIndex abi + sizeof_uint32_t ≤ kRdmaMessageBufferSize abi ∧
      kIsDeadStartIndex abi + abi.sizeofBool ≤ kRdmaMessageBufferSize abi ∧
      kDataTypeStartIndex abi + abi.sizeofDataType ≤ kRdmaMessageBufferSize abi ∧
      kTensorShapeStartIndex abi + abi.sizeofTensorShape ≤ kRdmaMessageBufferSize abi ∧
      kTensorBytesStartIndex abi + abi.sizeofSizeT ≤ kRdmaMessageBufferSize abi ∧
      kErrorStatusStartIndex abi + kErrorStatusSizeBytes ≤ kRdmaMessageBufferSize abi ∧
      kErrorStatusStartIndex abi + kErrorStatusMaxSize ≤ kRdmaMessageBufferSize abi := by
  simp only [kRdmaMessageBufferSize, kMessageTotalBytes, kErrorStatusStartIndex,
    kTensorBytesStartIndex, kTensorShapeStartIndex, kDataTypeStartIndex, kIsDeadStartIndex,
    kRkeyStartIndex, kRemoteAddrStartIndex, kRequestIndexStartIndex, kStepIdStartIndex,
    kNameStartIndex, kNameSizeStartIndex, kTypeStartIndex, kNameCapacity, kErrorStatusMaxSize,
    sizeof_uint16_t, sizeof_int64, sizeof_uint64_t, sizeof_uint32_t, kErrorStatusSizeBytes]
  omega

/-- The parsed type tag is the low byte of the type of the message. -/
theorem parse_create_type (abi : Abi) (rm0 rm : RdmaMessage) (habi : abi.Valid) :
    (ParseMessage abi rm0 (CreateMessage abi rm)).type_ = rm.type_ % 256 := by
  have h := (fill_header abi rm habi).1
  simp only [ParseMessage]
  rw [loadLE_CreateMessage _ _ _ _ (fields_in_buffer abi).1, h]
  simp

/-- The parsed name has the parsed name size as its length, and the parsed name size
is the stored `name_size_`. -/
theorem parse_create_name_size (abi : Abi) (rm0 rm : RdmaMessage) (habi : abi.Valid) :
    (ParseMessage abi rm0 (CreateMessage abi rm)).name_.length =
        (ParseMessage abi rm0 (CreateMessage abi rm)).name_size_ ∧
      (ParseMessage abi rm0 (CreateMessage abi rm)).name_size_ =
        rm.name_size_ % 256 ^ sizeof_uint16_t := by
  have h := (fill_header abi rm habi).2.1
  simp only [ParseMessage, loadBytes, List.length_map, List.length_range, true_and]
  rw [loadLE_CreateMessage _ _ _ _ (fields_in_buffer abi).2.1, h]

/-- The parsed status of an `ERROR_STATUS` message is at most as long as the
error-status region after its size. -/
theorem parse_create_status_length (abi : Abi) (rm0 rm : RdmaMessage) (habi : abi.Valid)
    (hE : rm.type_ = RDMA_MESSAGE_ERROR_STATUS) (hs : allBytes rm.status_) :
    (ParseMessage abi rm0 (CreateMessage abi rm)).status_.length ≤
      kErrorStatusMaxSize - kErrorStatusSizeBytes := by
  have ht := parse_create_type abi rm0 rm habi
  have hsz := (fill_status abi rm hE hs).1
  simp only [ParseMessage] at ht ⊢
  rw [ht, hE]
  simp only [RDMA_MESSAGE_ERROR_STATUS, Nat.reduceMod, if_true, loadBytes, List.length_map,
    List.length_range]
  rw [loadLE_CreateMessage _ _ _ _ (fields_in_buffer abi).2.2.2.2.2.2.2.2.2.2.2.1, hsz,
    List.length_take]
  omega

/-- C6 (amended): for every `RdmaMessage` `rm` of one of the four types whose fields
hold values of their declared types, whose name fits the 512-byte name field,
whose `name_size_` is the length of `name_`, and, for `ERROR_STATUS`, whose
serialized status fits the error-status region after its 4-byte size,
`ParseMessage` applied to the bytes of `CreateMessage(rm)` reproduces type, name
size, name, step id, request index, remote address, rkey, liveness flag, data
type, tensor shape and tensor bytes, and the status for `ERROR_STATUS` (for the
other types the status of the parsed-into message is kept). -/
theorem parse_create_roundtrip (abi : Abi) (rm0 rm : RdmaMessage) (habi : abi.Valid)
    (htype : isKnownType rm.type_) (hty : rm.TypesOk abi)
    (hname : rm.name_.length ≤ kNameCapacity) (hsize : rm.name_size_ = rm.name_.length)
    (hstatus : rm.type_ = RDMA_MESSAGE_ERROR_STATUS →
      kErrorStatusSizeBytes + rm.status_.length ≤ kErrorStatusMaxSize) :
    ParseMessage abi rm0 (CreateMessage abi rm) =
      { rm with
        status_ := if rm.type_ = RDMA_MESSAGE_ERROR_STATUS then rm.status_ else rm0.status_ } := by
  obtain ⟨t1, t2, ⟨t3, t3b⟩, t4, t5, t6, t7, ⟨t8, t8b⟩, t9, t10⟩ := hty
  obtain ⟨f1, f2, f3, f4, f5, f6, f7, f8, f9⟩ := fill_header abi rm habi
  obtain ⟨g1, g2⟩ := fill_name_shape abi rm habi hname t2 t8 t8b
  obtain ⟨b1, b2, b3, b4, b5, b6, b7, b8, b9, b10, b11, b12, b13⟩ := fields_in_buffer abi
  have a2 : 0 < abi.sizeofBool := habi.2.1
  have hT : @LT.lt Nat _ rm.type_ 4 := by
    rcases htype with h | h | h | h <;> rw [h] <;> decide
  have e1 : loadLE (fun i => (CreateMessage abi rm).getD i 0) kTypeStartIndex 1 = rm.type_ := by
    rw [loadLE_CreateMessage _ _ _ _ b1, f1]
    exact Nat.mod_eq_of_lt (Nat.lt_of_lt_of_le hT (by norm_num))
  have e2 : loadLE (fun i => (CreateMessage abi rm).getD i 0) (kNameSizeStartIndex abi)
      sizeof_uint16_t = rm.name_.length := by
    rw [loadLE_CreateMessage _ _ _ _ b2, f2, Nat.mod_eq_of_lt t1, hsize]
  have e3 : loadBytes (fun i => (CreateMessage abi rm).getD i 0) (kNameStartIndex abi)
      rm.name_.length = rm.name_ := by
    rw [loadBytes_CreateMessage _ _ _ _ ((Nat.add_le_add_left hname _).trans b3), g1]
  have e4 : loadLE (fun i => (CreateMessage abi rm).getD i 0) (kStepIdStartIndex abi)
      sizeof_int64 = int64Bits rm.step_id_ := by
    rw [loadLE_CreateMessage _ _ _ _ b4, f3]
    exact Nat.mod_eq_of_lt (int64Bits_lt _)
  have e5 : loadLE (fun i => (CreateMessage abi rm).getD i 0) (kRequestIndexStartIndex abi)
      sizeof_uint64_t = rm.request_index_ := by
    rw [loadLE_CreateMessage _ _ _ _ b5, f4, Nat.mod_eq_of_lt t4]
  have e6 : loadLE (fun i => (CreateMessage abi rm).getD i 0) (kRemoteAddrStartIndex abi)
      sizeof_uint64_t = rm.remote_addr_ := by
    rw [loadLE_CreateMessage _ _ _ _ b6, f5, Nat.mod_eq_of_lt t5]
  have e7 : loadLE (fun i => (CreateMessage abi rm).getD i 0) (kRkeyStartIndex abi)
      sizeof_uint32_t = rm.rkey_ := by
    rw [loadLE_CreateMessage _ _ _ _ b7, f6, Nat.mod_eq_of_lt t6]
  have e8 : loadLE (fun i => (CreateMessage abi rm).getD i 0) (kIsDeadStartIndex abi)
      abi.sizeofBool = if rm.is_dead_ then 1 else 0 := by
    rw [loadLE_CreateMessage _ _ _ _ b8, f7]
    apply Nat.mod_eq_of_lt
    have : 256 ^ 1 ≤ 256 ^ abi.sizeofBool := Nat.pow_le_pow_right (by norm_num) a2
    split_ifs <;> omega
  have e9 : loadLE (fun i => (CreateMessage abi rm).getD i 0) (kDataTypeStartIndex abi)
      abi.sizeofDataType = rm.data_type_ := by
    rw [loadLE_CreateMessage _ _ _ _ b9, f8, Nat.mod_eq_of_lt t7]
  have e10 : loadBytes (fun i => (CreateMessage abi rm).getD i 0) (kTensorShapeStartIndex abi)
      abi.sizeofTensorShape = rm.tensor_shape_ := by
    rw [loadBytes_CreateMessage _ _ _ _ b10, g2]
  have e11 : loadLE (fun i => (CreateMessage abi rm).getD i 0) (kTensorBytesStartIndex abi)
      abi.sizeofSizeT = rm.tensor_bytes_ := by
    rw [loadLE_CreateMessage _ _ _ _ b11, f9, Nat.mod_eq_of_lt t9]
  have e12 : rm.type_ = RDMA_MESSAGE_ERROR_STATUS →
      loadBytes (fun i => (CreateMessage abi rm).getD i 0)
        (kErrorStatusStartIndex abi + kErrorStatusSizeBytes)
        (loadLE (fun i => (CreateMessage abi rm).getD i 0) (kErrorStatusStartIndex abi)
          kErrorStatusSizeBytes) = rm.status_ := by
    intro hE
    obtain ⟨s1, s2⟩ := fill_status abi rm hE t10
    have hfit := hstatus hE
    have htake : List.take (kErrorStatusMaxSize - kErrorStatusSizeBytes) rm.status_ =
        rm.status_ := List.take_of_length_le (Nat.le_sub_of_add_le' hfit)
    rw [htake] at s1 s2
    have hin : kErrorStatusStartIndex abi + kErrorStatusSizeBytes + rm.status_.length ≤
        kRdmaMessageBufferSize abi := by
      rw [Nat.add_assoc]
      exact (Nat.add_le_add_left hfit _).trans b13
    rw [loadLE_CreateMessage _ _ _ _ b12, s1, loadBytes_CreateMessage _ _ _ _ hin, s2]
  simp only [ParseMessage, e1, e2, e3, e4, e5, e6, e7, e8, e9, e10, e11]
  rw [int64OfBits_int64Bits _ t3 t3b]
  have hd : decide ((if rm.is_dead_ = true then 1 else 0) ≠ 0) = rm.is_dead_ := by
    cases rm.is_dead_ <;> simp
  rw [hd]
  by_cases hE : rm.type_ = RDMA_MESSAGE_ERROR_STATUS
  · rw [if_pos hE, if_pos hE, ← e2, e12 hE, e2, hsize]
  · rw [if_neg hE, if_neg hE, hsize]

/-- C6 (as stated): a name that fits the name field is not enough for the round
trip.  The request for `"A"` whose `name_size_` is 0 is parsed back with an empty
name, and the error message whose serialized status has 4093 bytes is parsed
back with a status of at most 4092 bytes. -/
theorem roundtrip_counterexample :
    (exampleAbi.Valid ∧ isKnownType exampleNameSizeZero.type_ ∧
        exampleNameSizeZero.TypesOk exampleAbi ∧
        exampleNameSizeZero.name_.length ≤ kNameCapacity ∧
        (ParseMessage exampleAbi RdmaMessage.blank
            (CreateMessage exampleAbi exampleNameSizeZero)).name_ ≠
          exampleNameSizeZero.name_) ∧
      (isKnownType exampleLongStatus.type_ ∧ exampleLongStatus.TypesOk exampleAbi ∧
        exampleLongStatus.name_.length ≤ kNameCapacity ∧
        (ParseMessage exampleAbi RdmaMessage.blank
            (CreateMessage exampleAbi exampleLongStatus)).status_ ≠
          exampleLongStatus.status_) := by
  have hv : exampleAbi.Valid := by decide
  have hb : allBytes exampleLongStatus.status_ := by
    intro b hbm
    simp only [exampleLongStatus, List.mem_replicate] at hbm
    omega
  refine ⟨⟨hv, by decide, by decide, by decide, ?_⟩, ⟨by decide, ?_, by decide, ?_⟩⟩
  · intro h
    have h1 := parse_create_name_size exampleAbi RdmaMessage.blank exampleNameSizeZero hv
    rw [h] at h1
    have h2 : exampleNameSizeZero.name_.length = 1 := rfl
    have h3 : exampleNameSizeZero.name_size_ % 256 ^ sizeof_uint16_t = 0 := rfl
    omega
  · refine ⟨by decide, by decide, by decide, by decide, by decide, by decide, by decide,
      by decide, by decide, hb⟩
  · intro h
    have h1 := parse_create_status_length exampleAbi RdmaMessage.blank exampleLongStatus hv rfl hb
    rw [h] at h1
    have h2 : exampleLongStatus.status_.length = 4093 := by
      simp only [exampleLongStatus, List.length_replicate]
    simp only [kErrorStatusMaxSize, kErrorStatusSizeBytes] at h1
    omega

/-- C6: the amended round trip on the tensor request for the key `"A"`. -/
theorem parse_create_roundtrip_witness :
    exampleAbi.Valid ∧ isKnownType exampleRequest.type_ ∧ exampleRequest.TypesOk exampleAbi ∧
      exampleRequest.name_.length ≤ kNameCapacity ∧
      exampleRequest.name_size_ = exampleRequest.name_.length ∧
      ParseMessage exampleAbi RdmaMessage.blank (CreateMessage exampleAbi exampleRequest) =
        exampleRequest :=
  ⟨by decide, by decide, by decide, by decide, by decide,
    (parse_create_roundtrip exampleAbi RdmaMessage.blank exampleRequest (by decide) (by decide)
      (by decide) (by decide) (by decide) (by decide)).trans (by decide)⟩

end Rdma
